import Mathlib

/-! Pod attribution of accelerator devices (`pkg/dcgmexporter/kubernetes.go`).

A shallow embedding of `ToDeviceToPod` and `PodMapper.Process`.

* Go strings are lists of characters.  Every pattern the code matches on is
  ASCII, so prefix, substring and split positions are the same whether one
  counts bytes or characters.
* A Go map is an association list in which every key is bound at most once;
  reading an absent key gives the zero value of the element type.  The
  attribute maps of the metric records are references into a heap of such
  maps, so that two records can hold the same map.
* A run-time panic (slice bound or index out of range, write to a nil map) is
  the value `none`.
* Declarations that `kubernetes.go` uses but does not contain (the string
  constants, `nvml.ParseMigDeviceUUID`, `GetGpuInstanceIdentifier`,
  `Metric.getIDOfType`) are fields of an environment.
-/

namespace DcgmExporter

/-! ## Strings -/

/-- Go `string`. -/
abbrev GoString := List Char

/-- Go `strings.HasPrefix(s, pre)`. -/
def HasPrefix (s pre : GoString) : Bool := pre.isPrefixOf s

/-- Go `strings.Index(s, substr)`: the position of the first occurrence of
`substr` in `s`; `none` stands for Go's `-1`. -/
def Index : GoString → GoString → Option Nat
  | [], substr => if HasPrefix [] substr then some 0 else none
  | c :: cs, substr =>
    if HasPrefix (c :: cs) substr then some 0 else (Index cs substr).map (· + 1)

/-- Go `strings.Contains(s, substr)`, which is `Index(s, substr) >= 0`. -/
def Contains (s substr : GoString) : Bool := (Index s substr).isSome

/-- Go slice expression `s[n:]`; it panics when `n > len(s)`. -/
def sliceFrom (s : GoString) (n : Nat) : Option GoString :=
  if n ≤ s.length then some (s.drop n) else none

/-- The cutting loop of Go `strings.genSplit` for a non-empty separator: cut at
the first occurrence of `sep`, continue behind it.  The first argument bounds
the number of cuts. -/
def genSplit (sep : GoString) : Nat → GoString → List GoString
  | 0, s => [s]
  | n + 1, s =>
    match Index s sep with
    | none => [s]
    | some m => s.take m :: genSplit sep n (s.drop (m + sep.length))

/-- Go `strings.Split(s, sep)`.  An empty separator explodes the string into
its characters; otherwise at most `len(s)` cuts are possible, each one
consuming at least one character. -/
def Split (s sep : GoString) : List GoString :=
  if sep = [] then s.map (fun c => [c]) else genSplit sep s.length s

/-- The character class `[0-9]`. -/
def isDigit (c : Char) : Bool := decide ('0' ≤ c) && decide (c ≤ '9')

/-- Remove a literal from the front of a string, if it is there. -/
def stripLiteral : GoString → GoString → Option GoString
  | [], s => some s
  | _ :: _, [] => none
  | p :: ps, c :: cs => if p = c then stripLiteral ps cs else none

/-- The string `gkeVirtualGPUDeviceIdSeparator`. -/
def gkeVirtualGPUDeviceIdSeparator : GoString := "/vgpu".toList

/-- The call `gkeMigDeviceIdRegex.FindStringSubmatch(s)` for the anchored
pattern `^nvidia([0-9]+)/gi([0-9]+)$`: `none` is the nil slice, a match is the
slice of the whole match followed by the two capture groups.  The character
after the first group is not a digit, so the first group is the longest run
of digits. -/
def gkeMigDeviceIdRegex_FindStringSubmatch (s : GoString) : Option (List GoString) :=
  match stripLiteral "nvidia".toList s with
  | none => none
  | some r =>
    let g1 := r.takeWhile isDigit
    if g1 = [] then none else
    match stripLiteral "/gi".toList (r.dropWhile isDigit) with
    | none => none
    | some g2 => if g2 ≠ [] ∧ g2.all isDigit then some [s, g1, g2] else none

/-- Go `fmt.Sprintf("%s-%s", a, b)`. -/
def sprintfDash (a b : GoString) : GoString := a ++ "-".toList ++ b

/-! ## Maps -/

/-- Go `map[string]β`. -/
abbrev GoMap (β : Type) := List (GoString × β)

/-- The statement `m[k] = v`. -/
def GoMap.assign {β : Type} (m : GoMap β) (k : GoString) (v : β) : GoMap β :=
  (k, v) :: m.filter (fun e => !(e.1 == k))

/-- The two-valued read `v, ok := m[k]`. -/
def GoMap.find {β : Type} (m : GoMap β) (k : GoString) : Option β :=
  List.lookup k m

/-- The keys of a map. -/
def GoMap.keys {β : Type} (m : GoMap β) : List GoString := m.map Prod.fst

/-- A `for _, x := range xs` loop whose body updates a state and may panic. -/
def rangeLoop {σ α : Type} (body : σ → α → Option σ) : σ → List α → Option σ
  | s, [] => some s
  | s, x :: xs => (body s x).bind (fun s1 => rangeLoop body s1 xs)

/-! ## Data model -/

/-- The struct `PodInfo`. -/
structure PodInfo where
  Name : GoString
  Namespace : GoString
  Container : GoString
  deriving DecidableEq, Repr

/-- The zero value of `PodInfo`, read from a map at an absent key. -/
def PodInfo.zero : PodInfo := ⟨[], [], []⟩

/-- The expression `m[k]` on a `map[string]PodInfo`. -/
def GoMap.index (m : GoMap PodInfo) (k : GoString) : PodInfo :=
  (m.find k).getD PodInfo.zero

/-- The message `podresourcesapi.ContainerDevices`. -/
structure ContainerDevices where
  ResourceName : GoString
  DeviceIds : List GoString
  deriving DecidableEq, Repr

/-- The message `podresourcesapi.ContainerResources`; the repeated field holds
pointers, `none` being nil. -/
structure ContainerResources where
  Name : GoString
  Devices : List (Option ContainerDevices)
  deriving DecidableEq, Repr

/-- The message `podresourcesapi.PodResources`. -/
structure PodResources where
  Name : GoString
  Namespace : GoString
  Containers : List (Option ContainerResources)
  deriving DecidableEq, Repr

/-- The message `podresourcesapi.ListPodResourcesResponse`. -/
structure ListPodResourcesResponse where
  PodResources : List (Option PodResources)
  deriving DecidableEq, Repr

/-- The nil-safe getter `(*ListPodResourcesResponse).GetPodResources`. -/
def ListPodResourcesResponse.GetPodResources :
    Option ListPodResourcesResponse → List (Option DcgmExporter.PodResources)
  | none => []
  | some r => r.PodResources

/-- The nil-safe getter `(*PodResources).GetName`. -/
def PodResources.GetName : Option PodResources → GoString
  | none => []
  | some p => p.Name

/-- The nil-safe getter `(*PodResources).GetNamespace`. -/
def PodResources.GetNamespace : Option PodResources → GoString
  | none => []
  | some p => p.Namespace

/-- The nil-safe getter `(*PodResources).GetContainers`. -/
def PodResources.GetContainers : Option PodResources → List (Option ContainerResources)
  | none => []
  | some p => p.Containers

/-- The nil-safe getter `(*ContainerResources).GetName`. -/
def ContainerResources.GetName : Option ContainerResources → GoString
  | none => []
  | some c => c.Name

/-- The nil-safe getter `(*ContainerResources).GetDevices`. -/
def ContainerResources.GetDevices : Option ContainerResources → List (Option ContainerDevices)
  | none => []
  | some c => c.Devices

/-- The nil-safe getter `(*ContainerDevices).GetResourceName`. -/
def ContainerDevices.GetResourceName : Option ContainerDevices → GoString
  | none => []
  | some d => d.ResourceName

/-- The nil-safe getter `(*ContainerDevices).GetDeviceIds`. -/
def ContainerDevices.GetDeviceIds : Option ContainerDevices → List GoString
  | none => []
  | some d => d.DeviceIds

/-- What `ToDeviceToPod` uses and `kubernetes.go` does not define: three
package-level strings, the parser of the `nvml` binding (a GPU uuid, a GPU
instance id and a compute instance id, or an error) and the lookup of an
instance's key in the system information. -/
structure Env (SystemInfo : Type) where
  MIG_UUID_PREFIX : GoString
  nvidiaResourceName : GoString
  nvidiaMigResourcePrefix : GoString
  ParseMigDeviceUUID : GoString → Except Unit (GoString × Nat × Nat)
  GetGpuInstanceIdentifier : SystemInfo → GoString → Nat → GoString

/-! ## `ToDeviceToPod` -/

/-- The loop `for groupIdx, group := range gkeMigDeviceIdMatches` with its
`switch`: the state is `(gpuIndex, gpuInstanceId)`, both initially empty. -/
def gkeGroups (gkeMigDeviceIdMatches : List GoString) : GoString × GoString :=
  gkeMigDeviceIdMatches.enum.foldl
    (fun st g =>
      match g.1 with
      | 1 => (g.2, st.2)
      | 2 => (st.1, g.2)
      | _ => st)
    ([], [])

/-- The body of `for _, deviceid := range device.GetDeviceIds()`. -/
def registerDeviceId {SystemInfo : Type} (env : Env SystemInfo) (sysInfo : SystemInfo)
    (podInfo : PodInfo) (deviceToPodMap : GoMap PodInfo) (deviceid : GoString) :
    Option (GoMap PodInfo) :=
  if HasPrefix deviceid env.MIG_UUID_PREFIX then
    match env.ParseMigDeviceUUID deviceid with
    | .ok (gpuUuid, gi, _) =>
      let giIdentifier := env.GetGpuInstanceIdentifier sysInfo gpuUuid gi
      some ((deviceToPodMap.assign giIdentifier podInfo).assign gpuUuid podInfo)
    | .error _ =>
      (sliceFrom deviceid env.MIG_UUID_PREFIX.length).map
        (fun gpuUuid => deviceToPodMap.assign gpuUuid podInfo)
  else
    match gkeMigDeviceIdRegex_FindStringSubmatch deviceid with
    | some gkeMigDeviceIdMatches =>
      let groups := gkeGroups gkeMigDeviceIdMatches
      let giIdentifier := sprintfDash groups.1 groups.2
      some (deviceToPodMap.assign giIdentifier podInfo)
    | none =>
      if Contains deviceid gkeVirtualGPUDeviceIdSeparator then
        ((Split deviceid gkeVirtualGPUDeviceIdSeparator)[0]?).map
          (fun key => deviceToPodMap.assign key podInfo)
      else if Contains deviceid "::".toList then
        ((Split deviceid "::".toList)[0]?).map
          (fun gpuInstanceId => deviceToPodMap.assign gpuInstanceId podInfo)
      else
        some (deviceToPodMap.assign deviceid podInfo)

/-- The test that lets a resource grouping through: the code `continue`s when
the name differs from `nvidiaResourceName` and lacks the MIG resource prefix. -/
def qualifies {SystemInfo : Type} (env : Env SystemInfo) (resourceName : GoString) : Bool :=
  !(resourceName != env.nvidiaResourceName
    && (HasPrefix resourceName env.nvidiaMigResourcePrefix == false))

/-- The body of `for _, device := range container.GetDevices()`. -/
def forDevice {SystemInfo : Type} (env : Env SystemInfo) (sysInfo : SystemInfo)
    (pod : Option PodResources) (container : Option ContainerResources)
    (deviceToPodMap : GoMap PodInfo) (device : Option ContainerDevices) :
    Option (GoMap PodInfo) :=
  let resourceName := ContainerDevices.GetResourceName device
  if qualifies env resourceName then
    let podInfo : PodInfo :=
      { Name := PodResources.GetName pod
        Namespace := PodResources.GetNamespace pod
        Container := ContainerResources.GetName container }
    rangeLoop (registerDeviceId env sysInfo podInfo) deviceToPodMap
      (ContainerDevices.GetDeviceIds device)
  else
    some deviceToPodMap

/-- The body of `for _, container := range pod.GetContainers()`. -/
def forContainer {SystemInfo : Type} (env : Env SystemInfo) (sysInfo : SystemInfo)
    (pod : Option PodResources) (deviceToPodMap : GoMap PodInfo)
    (container : Option ContainerResources) : Option (GoMap PodInfo) :=
  rangeLoop (forDevice env sysInfo pod container) deviceToPodMap
    (ContainerResources.GetDevices container)

/-- The body of `for _, pod := range devicePods.GetPodResources()`. -/
def forPod {SystemInfo : Type} (env : Env SystemInfo) (sysInfo : SystemInfo)
    (deviceToPodMap : GoMap PodInfo) (pod : Option PodResources) : Option (GoMap PodInfo) :=
  rangeLoop (forContainer env sysInfo pod) deviceToPodMap (PodResources.GetContainers pod)

/-- The function `ToDeviceToPod`; `none` is a panic. -/
def ToDeviceToPod {SystemInfo : Type} (env : Env SystemInfo)
    (devicePods : Option ListPodResourcesResponse) (sysInfo : SystemInfo) :
    Option (GoMap PodInfo) :=
  rangeLoop (forPod env sysInfo) [] (ListPodResourcesResponse.GetPodResources devicePods)

/-! ## A concrete environment for the examples -/

/-- An environment for worked examples: the marker `MIG-`, the resource names
`nvidia.com/gpu` and `nvidia.com/mig-`, a parser that accepts the one id
`MIG-GPU-1/2/0` (as GPU `GPU-1`, GPU instance 2, compute instance 0) and
rejects every other string, and an instance lookup that knows `GPU-1` as
GPU 0. -/
def sampleEnv : Env Unit where
  MIG_UUID_PREFIX := "MIG-".toList
  nvidiaResourceName := "nvidia.com/gpu".toList
  nvidiaMigResourcePrefix := "nvidia.com/mig-".toList
  ParseMigDeviceUUID := fun s =>
    if s = "MIG-GPU-1/2/0".toList then .ok ("GPU-1".toList, 2, 0) else .error ()
  GetGpuInstanceIdentifier := fun _ gpuuuid gpuInstanceId =>
    if gpuuuid = "GPU-1".toList ∧ gpuInstanceId = 2 then "0-2".toList else []

/-- A response with one pod, one container, one resource grouping. -/
def singleResponse (podName ns containerName resourceName : GoString)
    (deviceIds : List GoString) : Option ListPodResourcesResponse :=
  some { PodResources :=
    [some { Name := podName, Namespace := ns, Containers :=
      [some { Name := containerName, Devices :=
        [some { ResourceName := resourceName, DeviceIds := deviceIds }] }] }] }

/-! ## `PodMapper.Process`

A Go map value is a reference to a map object: two records may hold the same
`Attributes` map, and a write through one of them shows through the other.
The map objects live in a heap, by address; a record holds an address. -/

/-- The address of a `map[string]string` object. -/
abbrev MapRef := Nat

/-- The `map[string]string` objects, by address. -/
abbrev Heap := MapRef → GoMap GoString

/-- The heap in which every map object is empty. -/
def Heap.empty : Heap := fun _ => []

/-- Replace the map object at an address. -/
def Heap.write (heap : Heap) (a : MapRef) (m : GoMap GoString) : Heap :=
  fun b => if b = a then m else heap b

/-- The struct `Metric`: its `Attributes` map, a reference (`none` is the nil
map), and, in `Fields`, everything else it holds. -/
structure Metric (F : Type) where
  Fields : F
  Attributes : Option MapRef
  deriving DecidableEq

/-- The statement `metrics[i][j].Attributes[k] = v`: the map object the record
refers to is updated in the heap; writing to a nil map panics. -/
def Metric.setAttribute {F : Type} (heap : Heap) (m : Metric F) (k v : GoString) :
    Option Heap :=
  m.Attributes.map (fun a => heap.write a ((heap a).assign k v))

/-- The value a record holds at an attribute name, if any, read through its
map reference. -/
def Metric.attribute {F : Type} (heap : Heap) (m : Metric F) (k : GoString) :
    Option GoString :=
  m.Attributes.bind (fun a => (heap a).find k)

/-- The two fields of `Config` that `Process` reads. -/
structure Config (IdType : Type) where
  KubernetesGPUIdType : IdType
  UseOldNamespace : Bool

/-- What `Process` uses beyond `ToDeviceToPod` and does not define: the six
attribute names and the method `Metric.getIDOfType`.  The method has a value
receiver; the specification has the id come from the key the record carries,
so the method is given the record and not the contents of its map. -/
structure ProcEnv (SystemInfo F IdType Err : Type) extends Env SystemInfo where
  podAttribute : GoString
  namespaceAttribute : GoString
  containerAttribute : GoString
  oldPodAttribute : GoString
  oldNamespaceAttribute : GoString
  oldContainerAttribute : GoString
  getIDOfType : Metric F → IdType → Except Err GoString

/-- What the node answers during one call of `Process`: whether `os.Stat`
reports that the socket path does not exist, the result of `connectToServer`
and the result of `ListPods`. -/
structure Kubelet (Err : Type) where
  statIsNotExist : Bool
  connectToServer : Except Err Unit
  ListPods : Except Err (Option ListPodResourcesResponse)

/-- The three attribute writes of one iteration of the inner loop. -/
def writePodInfo {SystemInfo F IdType Err : Type} (penv : ProcEnv SystemInfo F IdType Err)
    (cfg : Config IdType) (info : PodInfo) (heap : Heap) (m : Metric F) : Option Heap :=
  if !cfg.UseOldNamespace then
    ((m.setAttribute heap penv.podAttribute info.Name).bind
      (fun h1 => m.setAttribute h1 penv.namespaceAttribute info.Namespace)).bind
      (fun h2 => m.setAttribute h2 penv.containerAttribute info.Container)
  else
    ((m.setAttribute heap penv.oldPodAttribute info.Name).bind
      (fun h1 => m.setAttribute h1 penv.oldNamespaceAttribute info.Namespace)).bind
      (fun h2 => m.setAttribute h2 penv.oldContainerAttribute info.Container)

/-- The loop `for j, val := range device` over one group of records.  The
result is `none` on a panic and otherwise the error returned from inside the
loop, if any, with the heap as the loop leaves it. -/
def annotateDevice {SystemInfo F IdType Err : Type} (penv : ProcEnv SystemInfo F IdType Err)
    (cfg : Config IdType) (deviceToPod : GoMap PodInfo) :
    List (Metric F) → Heap → Option (Option Err × Heap)
  | [], heap => some (none, heap)
  | val :: rest, heap =>
    match penv.getIDOfType val cfg.KubernetesGPUIdType with
    | .error err => some (some err, heap)
    | .ok deviceId =>
      match writePodInfo penv cfg (deviceToPod.index deviceId) heap val with
      | none => none
      | some heap1 => annotateDevice penv cfg deviceToPod rest heap1

/-- The loop `for i, device := range metrics`. -/
def annotateMetrics {SystemInfo F IdType Err : Type} (penv : ProcEnv SystemInfo F IdType Err)
    (cfg : Config IdType) (deviceToPod : GoMap PodInfo) :
    List (List (Metric F)) → Heap → Option (Option Err × Heap)
  | [], heap => some (none, heap)
  | device :: rest, heap =>
    match annotateDevice penv cfg deviceToPod device heap with
    | none => none
    | some (some err, heap1) => some (some err, heap1)
    | some (none, heap1) => annotateMetrics penv cfg deviceToPod rest heap1

/-- The method `PodMapper.Process`.  The result is `none` on a panic and
otherwise the returned error (`none` is nil), the slice `metrics` and the heap
as the call leaves them.  No statement of `Process` assigns to `metrics`, to
one of its groups or to a record: the only writes go through a record's
`Attributes` map. -/
def Process {SystemInfo F IdType Err : Type} (penv : ProcEnv SystemInfo F IdType Err)
    (cfg : Config IdType) (kubelet : Kubelet Err) (metrics : List (List (Metric F)))
    (heap : Heap) (sysInfo : SystemInfo) :
    Option (Option Err × List (List (Metric F)) × Heap) :=
  if kubelet.statIsNotExist then some (none, metrics, heap)
  else
    match kubelet.connectToServer with
    | .error err => some (some err, metrics, heap)
    | .ok _ =>
      match kubelet.ListPods with
      | .error err => some (some err, metrics, heap)
      | .ok pods =>
        match ToDeviceToPod penv.toEnv pods sysInfo with
        | none => none
        | some deviceToPod =>
          (annotateMetrics penv cfg deviceToPod metrics heap).map
            (fun r => (r.1, metrics, r.2))

/-- The three attribute names `Process` writes under a configuration: the
current ones unless `UseOldNamespace` is set. -/
def selectedAttributes {SystemInfo F IdType Err : Type}
    (penv : ProcEnv SystemInfo F IdType Err) (cfg : Config IdType) :
    GoString × GoString × GoString :=
  if cfg.UseOldNamespace then
    (penv.oldPodAttribute, penv.oldNamespaceAttribute, penv.oldContainerAttribute)
  else
    (penv.podAttribute, penv.namespaceAttribute, penv.containerAttribute)

/-- What the claim asks of a record once the call is over, read in the heap
the call leaves: its id is computed, and the three selected attributes hold
the name, namespace and container of the table entry at that id, which are
three empty strings when the table has no entry there. -/
def Annotated {SystemInfo F IdType Err : Type} (penv : ProcEnv SystemInfo F IdType Err)
    (cfg : Config IdType) (table : GoMap PodInfo) (heap1 : Heap) (r : Metric F) : Prop :=
  ∃ deviceId, penv.getIDOfType r cfg.KubernetesGPUIdType = .ok deviceId
    ∧ r.attribute heap1 (selectedAttributes penv cfg).1 = some (table.index deviceId).Name
    ∧ r.attribute heap1 (selectedAttributes penv cfg).2.1
        = some (table.index deviceId).Namespace
    ∧ r.attribute heap1 (selectedAttributes penv cfg).2.2
        = some (table.index deviceId).Container
    ∧ (table.find deviceId = none →
        r.attribute heap1 (selectedAttributes penv cfg).1 = some []
        ∧ r.attribute heap1 (selectedAttributes penv cfg).2.1 = some []
        ∧ r.attribute heap1 (selectedAttributes penv cfg).2.2 = some [])

/-- An environment for worked examples of `Process`: `sampleEnv`, the current
attribute names `pod`, `namespace`, `container`, the old ones `pod_name`,
`pod_namespace`, `container_name`, and records whose other fields are just
the id they are keyed by. -/
def samplePenv : ProcEnv Unit GoString Unit Unit where
  toEnv := sampleEnv
  podAttribute := "pod".toList
  namespaceAttribute := "namespace".toList
  containerAttribute := "container".toList
  oldPodAttribute := "pod_name".toList
  oldNamespaceAttribute := "pod_namespace".toList
  oldContainerAttribute := "container_name".toList
  getIDOfType := fun m _ => .ok m.Fields

/-- A node whose kubelet socket exists and answers with one pod `pod-a` in
namespace `default` whose container `main` lists `GPU-1234` under
`nvidia.com/gpu`. -/
def sampleKubelet : Kubelet Unit where
  statIsNotExist := false
  connectToServer := .ok ()
  ListPods := .ok (singleResponse "pod-a".toList "default".toList "main".toList
    "nvidia.com/gpu".toList ["GPU-1234".toList])

/-- Two records, keyed `GPU-1234` and `GPU-9999`, each with a map of its own,
at the addresses 0 and 1. -/
def sampleMetrics : List (List (Metric GoString)) :=
  [[{ Fields := "GPU-1234".toList, Attributes := some 0 },
    { Fields := "GPU-9999".toList, Attributes := some 1 }]]

/-- Two records, keyed `GPU-1234` and `GPU-9999`, that hold one and the same
map, at the address 0. -/
def sharedMapMetrics : List (List (Metric GoString)) :=
  [[{ Fields := "GPU-1234".toList, Attributes := some 0 },
    { Fields := "GPU-9999".toList, Attributes := some 0 }]]

/-! ## The identifier rules as a decision list

The five rules of the identifier handling, written as the specification words
them, to be compared with `registerDeviceId`. -/

/-- The five rules, named by the encoding they recognise. -/
inductive Rule where
  | migUuid
  | gkeMig
  | virtualGpu
  | doubleColon
  | fallback
  deriving DecidableEq, Repr

/-- The order in which the rules are tried. -/
def Rule.order : List Rule :=
  [Rule.migUuid, Rule.gkeMig, Rule.virtualGpu, Rule.doubleColon, Rule.fallback]

/-- The condition under which a rule matches an identifier. -/
def Rule.applies {SystemInfo : Type} (env : Env SystemInfo) : Rule → GoString → Bool
  | Rule.migUuid, deviceid => HasPrefix deviceid env.MIG_UUID_PREFIX
  | Rule.gkeMig, deviceid => (gkeMigDeviceIdRegex_FindStringSubmatch deviceid).isSome
  | Rule.virtualGpu, deviceid => Contains deviceid gkeVirtualGPUDeviceIdSeparator
  | Rule.doubleColon, deviceid => Contains deviceid "::".toList
  | Rule.fallback, _ => true

/-- Everything before the first occurrence of a separator; the whole string
when the separator does not occur. -/
def beforeFirst (s sep : GoString) : GoString :=
  match Index s sep with
  | some m => s.take m
  | none => s

/-- The keys a rule registers for an identifier, in the order of registration. -/
def Rule.keys {SystemInfo : Type} (env : Env SystemInfo) (sysInfo : SystemInfo) :
    Rule → GoString → List GoString
  | Rule.migUuid, deviceid =>
    match env.ParseMigDeviceUUID deviceid with
    | .ok (gpuUuid, gi, _) => [env.GetGpuInstanceIdentifier sysInfo gpuUuid gi, gpuUuid]
    | .error _ => [deviceid.drop env.MIG_UUID_PREFIX.length]
  | Rule.gkeMig, deviceid =>
    match gkeMigDeviceIdRegex_FindStringSubmatch deviceid with
    | some groups => [sprintfDash (groups.getD 1 []) (groups.getD 2 [])]
    | none => []
  | Rule.virtualGpu, deviceid => [beforeFirst deviceid gkeVirtualGPUDeviceIdSeparator]
  | Rule.doubleColon, deviceid => [beforeFirst deviceid "::".toList]
  | Rule.fallback, deviceid => [deviceid]

/-- The first rule, in order, whose condition the identifier satisfies. -/
def firstRule {SystemInfo : Type} (env : Env SystemInfo) (deviceid : GoString) : Rule :=
  (Rule.order.find? (fun r => r.applies env deviceid)).getD Rule.fallback

/-- The keys registered for an identifier: those of its first matching rule. -/
def deviceKeys {SystemInfo : Type} (env : Env SystemInfo) (sysInfo : SystemInfo)
    (deviceid : GoString) : List GoString :=
  (firstRule env deviceid).keys env sysInfo deviceid

/-- Bind every key of a list to the same pod, in order. -/
def assignAll (m : GoMap PodInfo) (keys : List GoString) (podInfo : PodInfo) : GoMap PodInfo :=
  keys.foldl (fun t k => t.assign k podInfo) m

/-- The position of a rule in the order of trial. -/
def Rule.rank : Rule → Nat
  | Rule.migUuid => 1
  | Rule.gkeMig => 2
  | Rule.virtualGpu => 3
  | Rule.doubleColon => 4
  | Rule.fallback => 5

/-! ## The response as a sequence of assignments -/

/-- The pod a device id is attributed to, with the id, for every device id
under a qualifying resource grouping, in the order of iteration: pods, then
containers, then resource groupings, then device ids. -/
def assignments {SystemInfo : Type} (env : Env SystemInfo)
    (devicePods : Option ListPodResourcesResponse) : List (PodInfo × GoString) :=
  (ListPodResourcesResponse.GetPodResources devicePods).flatMap (fun pod =>
    (PodResources.GetContainers pod).flatMap (fun container =>
      (ContainerResources.GetDevices container).flatMap (fun device =>
        if qualifies env (ContainerDevices.GetResourceName device) then
          (ContainerDevices.GetDeviceIds device).map (fun deviceid =>
            (({ Name := PodResources.GetName pod
                Namespace := PodResources.GetNamespace pod
                Container := ContainerResources.GetName container } : PodInfo), deviceid))
        else [])))

/-- Register one assignment: bind the keys of its device id to its pod. -/
def registerAssignment {SystemInfo : Type} (env : Env SystemInfo) (sysInfo : SystemInfo)
    (m : GoMap PodInfo) (a : PodInfo × GoString) : GoMap PodInfo :=
  assignAll m (deviceKeys env sysInfo a.2) a.1

/-- The pod of the last assignment, in the order of iteration, whose device id
produces the key. -/
def lastOwner {SystemInfo : Type} (env : Env SystemInfo) (sysInfo : SystemInfo)
    (devicePods : Option ListPodResourcesResponse) (key : GoString) : Option PodInfo :=
  ((assignments env devicePods).reverse.find?
    (fun a => decide (key ∈ deviceKeys env sysInfo a.2))).map Prod.fst

/-- A container without its resource groupings that do not qualify. -/
def ContainerResources.keepQualifying {SystemInfo : Type} (env : Env SystemInfo)
    (container : Option ContainerResources) : Option ContainerResources :=
  container.map (fun c =>
    { c with Devices :=
        c.Devices.filter (fun d => qualifies env (ContainerDevices.GetResourceName d)) })

/-- A pod without the resource groupings that do not qualify. -/
def PodResources.keepQualifying {SystemInfo : Type} (env : Env SystemInfo)
    (pod : Option PodResources) : Option PodResources :=
  pod.map (fun p =>
    { p with Containers := p.Containers.map (ContainerResources.keepQualifying env) })

/-- A response without the resource groupings that do not qualify. -/
def ListPodResourcesResponse.keepQualifying {SystemInfo : Type} (env : Env SystemInfo)
    (devicePods : Option ListPodResourcesResponse) : Option ListPodResourcesResponse :=
  devicePods.map (fun r =>
    { r with PodResources := r.PodResources.map (DcgmExporter.PodResources.keepQualifying env) })

/-! ## Relations between a record before and after a call, and further notions
of the specification -/

/-- A record read in the heap `heap1` after the call differs from the same
record read in the heap `heap` before it at most in the three selected
attributes: the other fields are the same and every other attribute name
reads the same. -/
def SameExceptSelected {SystemInfo F IdType Err : Type}
    (penv : ProcEnv SystemInfo F IdType Err) (cfg : Config IdType) (heap heap1 : Heap)
    (before after : Metric F) : Prop :=
  after.Fields = before.Fields
    ∧ ∀ k, k ≠ (selectedAttributes penv cfg).1 → k ≠ (selectedAttributes penv cfg).2.1 →
        k ≠ (selectedAttributes penv cfg).2.2 →
        after.attribute heap1 k = before.attribute heap k

/-- Every record of the list that holds a map no later record of the list
holds is annotated in the heap `heap1`. -/
def LastHoldersAnnotated {SystemInfo F IdType Err : Type}
    (penv : ProcEnv SystemInfo F IdType Err) (cfg : Config IdType) (table : GoMap PodInfo)
    (heap1 : Heap) (records : List (Metric F)) : Prop :=
  ∀ before r after, records = before ++ r :: after →
    (∀ r2 ∈ after, r2.Attributes ≠ r.Attributes) → Annotated penv cfg table heap1 r

/-- A pod and container of the response list the device id under a qualifying
resource grouping; `podInfo` is their (pod name, namespace, container name). -/
def Lists {SystemInfo : Type} (env : Env SystemInfo)
    (devicePods : Option ListPodResourcesResponse) (podInfo : PodInfo)
    (deviceid : GoString) : Prop :=
  ∃ pod ∈ ListPodResourcesResponse.GetPodResources devicePods,
    ∃ container ∈ PodResources.GetContainers pod,
      ∃ device ∈ ContainerResources.GetDevices container,
        qualifies env (ContainerDevices.GetResourceName device) = true
        ∧ deviceid ∈ ContainerDevices.GetDeviceIds device
        ∧ podInfo = { Name := PodResources.GetName pod
                      Namespace := PodResources.GetNamespace pod
                      Container := ContainerResources.GetName container }

/-- Right-biased union of two tables, read at a key: the value of `b` when `b`
has the key, the value of `a` otherwise. -/
def overriddenBy (a b : GoMap PodInfo) (key : GoString) : Option PodInfo :=
  match b.find key with
  | some v => some v
  | none => a.find key

/-- An environment for worked examples of `Process` in which `getIDOfType`
fails on a record that has no id of the configured type (here: an empty key);
otherwise as `samplePenv`. -/
def strictPenv : ProcEnv Unit GoString Unit Unit where
  toEnv := sampleEnv
  podAttribute := "pod".toList
  namespaceAttribute := "namespace".toList
  containerAttribute := "container".toList
  oldPodAttribute := "pod_name".toList
  oldNamespaceAttribute := "pod_namespace".toList
  oldContainerAttribute := "container_name".toList
  getIDOfType := fun m _ => if m.Fields = [] then .error () else .ok m.Fields

/-- Three records in one group: keyed `GPU-1234`, without a key, keyed
`GPU-9999`; each with a map of its own, at the addresses 0, 1 and 2. -/
def partlyKeyedMetrics : List (List (Metric GoString)) :=
  [[{ Fields := "GPU-1234".toList, Attributes := some 0 },
    { Fields := [], Attributes := some 1 },
    { Fields := "GPU-9999".toList, Attributes := some 2 }]]

/-- A node whose kubelet socket exists and that refuses the connection. -/
def refusingKubelet : Kubelet Unit where
  statIsNotExist := false
  connectToServer := .error ()
  ListPods := .ok none

/-- A node without a kubelet socket. -/
def absentKubelet : Kubelet Unit where
  statIsNotExist := true
  connectToServer := .error ()
  ListPods := .error ()

/-- What an error return of `Process` leaves behind.  Either the error came from
connecting or listing and the heap is as before the call; or the table was
built and the loop stopped at the record `failing`, whose id could not be
computed: every map that no record before `failing` holds is as before the
call, and, the three selected names being distinct, the records before
`failing` are annotated (each one that holds a map no later one of them
holds). -/
def StoppedAt {SystemInfo F IdType Err : Type} (penv : ProcEnv SystemInfo F IdType Err)
    (cfg : Config IdType) (kubelet : Kubelet Err) (sysInfo : SystemInfo)
    (metrics : List (List (Metric F))) (heap : Heap) (err : Err) : Prop :=
  ((kubelet.connectToServer = .error err ∨ kubelet.ListPods = .error err)
    ∧ Process penv cfg kubelet metrics heap sysInfo = some (some err, metrics, heap))
  ∨ ∃ pods table heap1 done failing left,
      kubelet.ListPods = .ok pods
      ∧ ToDeviceToPod penv.toEnv pods sysInfo = some table
      ∧ Process penv cfg kubelet metrics heap sysInfo = some (some err, metrics, heap1)
      ∧ metrics.flatten = done ++ failing :: left
      ∧ penv.getIDOfType failing cfg.KubernetesGPUIdType = .error err
      ∧ (∀ a, (∀ r ∈ done, r.Attributes ≠ some a) → heap1 a = heap a)
      ∧ ((selectedAttributes penv cfg).1 ≠ (selectedAttributes penv cfg).2.1 →
          (selectedAttributes penv cfg).1 ≠ (selectedAttributes penv cfg).2.2 →
          (selectedAttributes penv cfg).2.1 ≠ (selectedAttributes penv cfg).2.2 →
          LastHoldersAnnotated penv cfg table heap1 done)

/-! ## Maps: reading after writing -/

theorem lookup_filter_self {β : Type} (m : GoMap β) (k : GoString) :
    List.lookup k (m.filter (fun e => !(e.1 == k))) = none := by
  induction m with
  | nil => rfl
  | cons e m ih =>
    obtain ⟨a, b⟩ := e
    by_cases h : a = k
    · simp [List.filter_cons, h, ih]
    · have hk : (k == a) = false := by simpa using fun h1 => h h1.symm
      simp [List.filter_cons, h, List.lookup_cons, hk, ih]

theorem lookup_filter_ne {β : Type} (m : GoMap β) (k k1 : GoString) (h : k1 ≠ k) :
    List.lookup k1 (m.filter (fun e => !(e.1 == k))) = List.lookup k1 m := by
  induction m with
  | nil => rfl
  | cons e m ih =>
    obtain ⟨a, b⟩ := e
    by_cases he : a = k
    · have hk : (k1 == k) = false := by simpa using h
      subst he
      simp [List.filter_cons, List.lookup_cons, hk, ih]
    · simp [List.filter_cons, he, List.lookup_cons, ih]

theorem GoMap.find_assign {β : Type} (m : GoMap β) (k k1 : GoString) (v : β) :
    (m.assign k v).find k1 = if k1 = k then some v else m.find k1 := by
  unfold GoMap.assign GoMap.find
  by_cases h : k1 = k
  · subst h
    simp [List.lookup_cons]
  · have hk : (k1 == k) = false := by simpa using h
    simp [List.lookup_cons, hk, h, lookup_filter_ne m k k1 h]

theorem GoMap.assign_nil {β : Type} (k : GoString) (v : β) :
    GoMap.assign ([] : GoMap β) k v = [(k, v)] := rfl

/-! ## A response with a single resource grouping -/

theorem ToDeviceToPod_single {SystemInfo : Type} (env : Env SystemInfo) (sysInfo : SystemInfo)
    (podName ns containerName resourceName : GoString) (deviceIds : List GoString) :
    ToDeviceToPod env (singleResponse podName ns containerName resourceName deviceIds) sysInfo
      = if qualifies env resourceName then
          rangeLoop (registerDeviceId env sysInfo ⟨podName, ns, containerName⟩) [] deviceIds
        else some [] := by
  simp only [ToDeviceToPod, singleResponse, ListPodResourcesResponse.GetPodResources,
    rangeLoop, forPod, PodResources.GetContainers, forContainer,
    ContainerResources.GetDevices, forDevice, ContainerDevices.GetResourceName,
    ContainerDevices.GetDeviceIds, PodResources.GetName, PodResources.GetNamespace,
    ContainerResources.GetName]
  split <;> simp

theorem rangeLoop_single {σ α : Type} (body : σ → α → Option σ) (s : σ) (x : α) :
    rangeLoop body s [x] = body s x := by
  simp [rangeLoop]

/-! ## Strings: prefixes, first occurrences, cuts -/

theorem HasPrefix_iff (s pre : GoString) :
    HasPrefix s pre = true ↔ ∃ r, s = pre ++ r := by
  unfold HasPrefix
  rw [List.isPrefixOf_iff_prefix]
  constructor
  · rintro ⟨r, hr⟩
    exact ⟨r, hr.symm⟩
  · rintro ⟨r, hr⟩
    exact ⟨r, hr.symm⟩

theorem HasPrefix_nil_left (pre : GoString) (h : pre ≠ []) : HasPrefix [] pre = false := by
  cases pre with
  | nil => exact absurd rfl h
  | cons p ps => rfl

/-- What `Index` returns: a position at which `substr` occurs, before which it
does not occur, or `none` when it occurs nowhere. -/
theorem Index_spec (s substr : GoString) :
    match Index s substr with
    | some m =>
      m ≤ s.length ∧ (∃ r, s = s.take m ++ substr ++ r)
        ∧ ∀ a b, s = a ++ substr ++ b → m ≤ a.length
    | none => ∀ a b, s ≠ a ++ substr ++ b := by
  induction s with
  | nil =>
    unfold Index
    by_cases h : HasPrefix [] substr = true
    · rw [if_pos h]
      obtain ⟨r, hr⟩ := (HasPrefix_iff _ _).mp h
      exact ⟨Nat.le_refl _, ⟨r, by simpa using hr⟩, fun _ _ _ => Nat.zero_le _⟩
    · rw [if_neg h]
      intro a b hab
      apply h
      rw [HasPrefix_iff]
      have ha : a = [] := by
        cases a with
        | nil => rfl
        | cons x xs => simp at hab
      subst ha
      exact ⟨b, by simpa using hab⟩
  | cons c cs ih =>
    unfold Index
    by_cases h : HasPrefix (c :: cs) substr = true
    · rw [if_pos h]
      obtain ⟨r, hr⟩ := (HasPrefix_iff _ _).mp h
      exact ⟨Nat.zero_le _, ⟨r, by simpa using hr⟩, fun _ _ _ => Nat.zero_le _⟩
    · rw [if_neg h]
      have hne : ∀ a b, c :: cs = a ++ substr ++ b → ∃ a1, a = c :: a1 ∧ cs = a1 ++ substr ++ b := by
        intro a b hab
        cases a with
        | nil =>
          exact absurd ((HasPrefix_iff _ _).mpr ⟨b, by simpa using hab⟩) h
        | cons x xs =>
          simp only [List.cons_append, List.cons.injEq] at hab
          exact ⟨xs, by rw [hab.1], hab.2⟩
      cases hi : Index cs substr with
      | none =>
        rw [hi] at ih
        simp only [Option.map_none']
        intro a b hab
        obtain ⟨a1, -, h1⟩ := hne a b hab
        exact ih a1 b h1
      | some m =>
        rw [hi] at ih
        simp only [Option.map_some']
        obtain ⟨hlen, ⟨r, hr⟩, hmin⟩ := ih
        refine ⟨by simpa using hlen, ⟨r, ?_⟩, ?_⟩
        · simp only [List.take_succ_cons, List.cons_append, List.cons.injEq, true_and]
          exact hr
        · intro a b hab
          obtain ⟨a1, ha, h1⟩ := hne a b hab
          subst ha
          simpa using hmin a1 b h1

theorem Contains_iff (s substr : GoString) :
    Contains s substr = true ↔ ∃ a b, s = a ++ substr ++ b := by
  have h := Index_spec s substr
  unfold Contains
  cases hi : Index s substr with
  | none =>
    rw [hi] at h
    simp only [Option.isSome_none, Bool.false_eq_true, false_iff]
    rintro ⟨a, b, hab⟩
    exact h a b hab
  | some m =>
    rw [hi] at h
    simp only [Option.isSome_some, true_iff]
    obtain ⟨-, ⟨r, hr⟩, -⟩ := h
    exact ⟨_, r, hr⟩

/-- The first occurrence: `Index` returns the length of `before` when the
string is `before ++ substr ++ after` and no occurrence starts earlier. -/
theorem Index_first (before substr after : GoString)
    (hfirst : ∀ a b, before ++ substr ++ after = a ++ substr ++ b → before.length ≤ a.length) :
    Index (before ++ substr ++ after) substr = some before.length := by
  have h := Index_spec (before ++ substr ++ after) substr
  cases hi : Index (before ++ substr ++ after) substr with
  | none =>
    rw [hi] at h
    exact absurd rfl (h before after)
  | some m =>
    rw [hi] at h
    obtain ⟨hlen, ⟨r, hr⟩, hmin⟩ := h
    have h1 : m ≤ before.length := hmin before after rfl
    have h2 := hfirst _ r hr
    rw [List.length_take, Nat.min_eq_left hlen] at h2
    rw [Nat.le_antisymm h1 h2]

/-- Element 0 of `Split` when the separator occurs: the part before its first
occurrence. -/
theorem Split_head_of_Index (s sep : GoString) (m : Nat) (hsep : sep ≠ [])
    (hi : Index s sep = some m) : (Split s sep)[0]? = some (s.take m) := by
  unfold Split
  rw [if_neg hsep]
  cases s with
  | nil =>
    unfold Index at hi
    rw [HasPrefix_nil_left sep hsep] at hi
    simp at hi
  | cons c cs =>
    simp [genSplit, hi]

/-- Element 0 of `Split` when the separator does not occur: the whole string. -/
theorem Split_head_of_not_Contains (s sep : GoString) (hsep : sep ≠ [])
    (hi : Index s sep = none) : (Split s sep)[0]? = some s := by
  unfold Split
  rw [if_neg hsep]
  cases s with
  | nil => simp [genSplit]
  | cons c cs =>
    simp [genSplit, hi]

theorem Split_head_first (before sep after : GoString) (hsep : sep ≠ [])
    (hfirst : ∀ a b, before ++ sep ++ after = a ++ sep ++ b → before.length ≤ a.length) :
    (Split (before ++ sep ++ after) sep)[0]? = some before := by
  rw [Split_head_of_Index _ _ _ hsep (Index_first before sep after hfirst)]
  simp [List.append_assoc]

/-! ## The pattern `^nvidia([0-9]+)/gi([0-9]+)$` -/

theorem stripLiteral_iff (lit s r : GoString) :
    stripLiteral lit s = some r ↔ s = lit ++ r := by
  induction lit generalizing s with
  | nil =>
    simp only [stripLiteral, Option.some.injEq, List.nil_append]
  | cons p ps ih =>
    cases s with
    | nil => simp [stripLiteral]
    | cons c cs =>
      simp only [stripLiteral, List.cons_append, List.cons.injEq]
      by_cases h : p = c
      · rw [if_pos h, ih]
        constructor
        · intro h1
          exact ⟨h.symm, h1⟩
        · intro h1
          exact h1.2
      · rw [if_neg h]
        constructor
        · intro h1
          exact absurd h1 (by simp)
        · intro h1
          exact absurd h1.1.symm h

theorem takeWhile_digits (g rest : GoString) (hg : ∀ c ∈ g, isDigit c = true)
    (hrest : ∀ c rs, rest = c :: rs → isDigit c = false) :
    (g ++ rest).takeWhile isDigit = g ∧ (g ++ rest).dropWhile isDigit = rest := by
  rw [List.takeWhile_append_of_pos hg, List.dropWhile_append_of_pos hg]
  cases rest with
  | nil => simp
  | cons c rs =>
    have hc := hrest c rs rfl
    simp [List.takeWhile_cons, List.dropWhile_cons, hc]

/-- The matcher accepts every string of the form `nvidia<N>/gi<M>` and returns
the whole string, `N` and `M`. -/
theorem gke_complete (N M : GoString) (hN : N ≠ []) (hM : M ≠ [])
    (hNd : ∀ c ∈ N, isDigit c = true) (hMd : ∀ c ∈ M, isDigit c = true) :
    gkeMigDeviceIdRegex_FindStringSubmatch ("nvidia".toList ++ N ++ "/gi".toList ++ M)
      = some ["nvidia".toList ++ N ++ "/gi".toList ++ M, N, M] := by
  have h1 : stripLiteral "nvidia".toList ("nvidia".toList ++ N ++ "/gi".toList ++ M)
      = some (N ++ ("/gi".toList ++ M)) := by
    rw [stripLiteral_iff]
    simp only [List.append_assoc]
  have h2 := takeWhile_digits N ("/gi".toList ++ M) hNd (by
    intro c rs h
    have hc : c = '/' := by
      have h3 : ("/gi".toList ++ M).head? = some c := by rw [h]; rfl
      simpa using h3.symm
    subst hc
    decide)
  have h3 : stripLiteral "/gi".toList ("/gi".toList ++ M) = some M := by
    rw [stripLiteral_iff]
  have h4 : M.all isDigit = true := by
    rw [List.all_eq_true]
    exact hMd
  unfold gkeMigDeviceIdRegex_FindStringSubmatch
  simp only [h1, h2.1, h2.2, h3, if_neg hN, h4, hM, ne_eq, not_false_eq_true, and_self, if_true]

/-- The matcher accepts nothing else. -/
theorem gke_sound (s : GoString) (l : List GoString)
    (h : gkeMigDeviceIdRegex_FindStringSubmatch s = some l) :
    ∃ N M, N ≠ [] ∧ M ≠ [] ∧ (∀ c ∈ N, isDigit c = true) ∧ (∀ c ∈ M, isDigit c = true)
      ∧ s = "nvidia".toList ++ N ++ "/gi".toList ++ M ∧ l = [s, N, M] := by
  unfold gkeMigDeviceIdRegex_FindStringSubmatch at h
  cases h1 : stripLiteral "nvidia".toList s with
  | none =>
    rw [h1] at h
    exact absurd h (by simp)
  | some r =>
    rw [h1] at h
    simp only at h
    by_cases hg : r.takeWhile isDigit = []
    · simp [hg] at h
    · rw [if_neg hg] at h
      cases h2 : stripLiteral "/gi".toList (r.dropWhile isDigit) with
      | none =>
        rw [h2] at h
        exact absurd h (by simp)
      | some g2 =>
        rw [h2] at h
        simp only at h
        by_cases h3 : g2 ≠ [] ∧ g2.all isDigit = true
        · rw [if_pos h3] at h
          refine ⟨r.takeWhile isDigit, g2, hg, h3.1, ?_, ?_, ?_, ?_⟩
          · intro c hc
            exact List.mem_takeWhile_imp hc
          · exact List.all_eq_true.mp h3.2
          · rw [stripLiteral_iff] at h1 h2
            rw [h1, List.append_assoc, List.append_assoc, ← h2,
              List.takeWhile_append_dropWhile]
          · exact (Option.some.inj h).symm
        · rw [if_neg h3] at h
          exact absurd h (by simp)

theorem not_digit_slash : isDigit '/' = false := by decide

theorem not_digit_colon : isDigit ':' = false := by decide

/-- A string matching the pattern does not contain `::`. -/
theorem gke_not_Contains_colons (s : GoString) (l : List GoString)
    (h : gkeMigDeviceIdRegex_FindStringSubmatch s = some l) :
    Contains s "::".toList = false := by
  obtain ⟨N, M, -, -, hNd, hMd, hs, -⟩ := gke_sound s l h
  rw [Bool.eq_false_iff]
  intro hc
  obtain ⟨a, b, hab⟩ := (Contains_iff _ _).mp hc
  have hmem : ':' ∈ s := by
    rw [hab]
    simp
  rw [hs] at hmem
  simp only [List.mem_append] at hmem
  rcases hmem with ((h1 | h1) | h1) | h1
  · exact absurd h1 (by decide)
  · have := hNd _ h1
    rw [not_digit_colon] at this
    exact absurd this (by simp)
  · exact absurd h1 (by decide)
  · have := hMd _ h1
    rw [not_digit_colon] at this
    exact absurd this (by simp)

/-- A string matching the pattern does not contain `/vgpu`: its only `/` is
followed by `g`. -/
theorem gke_not_Contains_vgpu (s : GoString) (l : List GoString)
    (h : gkeMigDeviceIdRegex_FindStringSubmatch s = some l) :
    Contains s gkeVirtualGPUDeviceIdSeparator = false := by
  obtain ⟨N, M, -, -, hNd, hMd, hs, -⟩ := gke_sound s l h
  rw [Bool.eq_false_iff]
  intro hc
  obtain ⟨a, b, hab⟩ := (Contains_iff _ _).mp hc
  have hP : '/' ∉ "nvidia".toList ++ N := by
    simp only [List.mem_append, not_or]
    refine ⟨by decide, fun h1 => ?_⟩
    have := hNd _ h1
    rw [not_digit_slash] at this
    exact absurd this (by simp)
  have hX : '/' ∉ "gi".toList ++ M := by
    simp only [List.mem_append, not_or]
    refine ⟨by decide, fun h1 => ?_⟩
    have := hMd _ h1
    rw [not_digit_slash] at this
    exact absurd this (by simp)
  have hs1 : s = ("nvidia".toList ++ N) ++ '/' :: ("gi".toList ++ M) := by
    rw [hs]
    simp [List.append_assoc]
  have hs2 : s = a ++ '/' :: ("vgpu".toList ++ b) := by
    rw [hab]
    simp [gkeVirtualGPUDeviceIdSeparator, List.append_assoc]
  have hne : "gi".toList ++ M ≠ "vgpu".toList ++ b := by
    intro h1
    have h2 := congrArg List.head? h1
    simp at h2
  rw [hs1] at hs2
  rcases List.append_eq_append_iff.mp hs2 with ⟨a1, ha, h1⟩ | ⟨c1, hc1, h1⟩
  · cases a1 with
    | nil =>
      simp only [List.nil_append, List.cons.injEq, true_and] at h1
      exact hne h1
    | cons x xs =>
      simp only [List.cons_append, List.cons.injEq] at h1
      apply hX
      rw [h1.2]
      simp
  · cases c1 with
    | nil =>
      simp only [List.nil_append, List.cons.injEq, true_and] at h1
      exact hne h1.symm
    | cons x xs =>
      simp only [List.cons_append, List.cons.injEq] at h1
      apply hP
      rw [hc1, ← h1.1]
      simp

theorem gkeGroups_match (s g1 g2 : GoString) : gkeGroups [s, g1, g2] = (g1, g2) := rfl

/-! ## The rules for one device id -/

/-- The body of the device-id loop never panics, and what it does to the table
is to bind the keys of the first matching rule. -/
theorem registerDeviceId_eq {SystemInfo : Type} (env : Env SystemInfo) (sysInfo : SystemInfo)
    (podInfo : PodInfo) (m : GoMap PodInfo) (deviceid : GoString) :
    registerDeviceId env sysInfo podInfo m deviceid
      = some (assignAll m (deviceKeys env sysInfo deviceid) podInfo) := by
  unfold registerDeviceId deviceKeys firstRule Rule.order assignAll
  by_cases h1 : HasPrefix deviceid env.MIG_UUID_PREFIX = true
  · have hlen : env.MIG_UUID_PREFIX.length ≤ deviceid.length :=
      (List.isPrefixOf_iff_prefix.mp h1).length_le
    simp only [h1, if_true, List.find?_cons, Rule.applies, Option.getD_some, Rule.keys]
    cases hp : env.ParseMigDeviceUUID deviceid with
    | error e => simp [sliceFrom, hlen]
    | ok r =>
      obtain ⟨gpuUuid, gi, ci⟩ := r
      simp
  · have h1f : HasPrefix deviceid env.MIG_UUID_PREFIX = false := by simpa using h1
    cases h2 : gkeMigDeviceIdRegex_FindStringSubmatch deviceid with
    | some groups =>
      obtain ⟨N, M, -, -, -, -, -, hl⟩ := gke_sound _ _ h2
      subst hl
      simp [h1f, List.find?_cons, Rule.applies, h2, Rule.keys, gkeGroups_match]
    | none =>
      by_cases h3 : Contains deviceid gkeVirtualGPUDeviceIdSeparator = true
      · have hi : ∃ m, Index deviceid gkeVirtualGPUDeviceIdSeparator = some m := by
          unfold Contains at h3
          exact Option.isSome_iff_exists.mp h3
        obtain ⟨i, hi⟩ := hi
        have hs := Split_head_of_Index deviceid gkeVirtualGPUDeviceIdSeparator i (by decide) hi
        simp [h1f, List.find?_cons, Rule.applies, h2, h3, Rule.keys, beforeFirst, hi, hs]
      · have h3f : Contains deviceid gkeVirtualGPUDeviceIdSeparator = false := by simpa using h3
        by_cases h4 : Contains deviceid "::".toList = true
        · have hi : ∃ m, Index deviceid "::".toList = some m := by
            unfold Contains at h4
            exact Option.isSome_iff_exists.mp h4
          obtain ⟨i, hi⟩ := hi
          have hs := Split_head_of_Index deviceid "::".toList i (by decide) hi
          have hi2 : Index deviceid [':', ':'] = some i := hi
          simp only [h1f, List.find?_cons, Rule.applies, h2, h3f, h4, Rule.keys, beforeFirst,
            hi, hs]
          simp [hi2]
        · have h4f : Contains deviceid "::".toList = false := by simpa using h4
          simp only [h1f, List.find?_cons, Rule.applies, h2, h3f, h4f, Rule.keys]
          simp

/-- C1: a device id under a qualifying resource grouping that starts with
`MIG_UUID_PREFIX` and that `nvml.ParseMigDeviceUUID` parses as `(gpuUuid, gi)`:
the table built from a response holding only that id maps both
`GetGpuInstanceIdentifier(sysInfo, gpuUuid, gi)` and `gpuUuid` to the pod
name, namespace and container name of the container that lists the id. -/
theorem C1_parsed_mig_id_registers_instance_and_uuid {SystemInfo : Type}
    (env : Env SystemInfo) (sysInfo : SystemInfo)
    (podName ns containerName resourceName deviceid gpuUuid : GoString) (gi ci : Nat)
    (hq : qualifies env resourceName = true)
    (hpre : HasPrefix deviceid env.MIG_UUID_PREFIX = true)
    (hparse : env.ParseMigDeviceUUID deviceid = .ok (gpuUuid, gi, ci)) :
    ∃ table : GoMap PodInfo,
      ToDeviceToPod env (singleResponse podName ns containerName resourceName [deviceid])
        sysInfo = some table
      ∧ table.find (env.GetGpuInstanceIdentifier sysInfo gpuUuid gi)
          = some ⟨podName, ns, containerName⟩
      ∧ table.find gpuUuid = some ⟨podName, ns, containerName⟩ := by
  refine ⟨(GoMap.assign [] (env.GetGpuInstanceIdentifier sysInfo gpuUuid gi)
    ⟨podName, ns, containerName⟩).assign gpuUuid ⟨podName, ns, containerName⟩, ?_, ?_, ?_⟩
  · rw [ToDeviceToPod_single, if_pos hq, rangeLoop_single]
    simp only [registerDeviceId, hpre, if_true, hparse]
  · rw [GoMap.find_assign, GoMap.find_assign]
    split <;> simp
  · rw [GoMap.find_assign]
    simp

theorem C1_parsed_mig_id_witness :
    ∃ table : GoMap PodInfo,
      ToDeviceToPod sampleEnv (singleResponse "pod-a".toList "default".toList "main".toList
        "nvidia.com/mig-1g.5gb".toList ["MIG-GPU-1/2/0".toList]) () = some table
      ∧ table.find (sampleEnv.GetGpuInstanceIdentifier () "GPU-1".toList 2)
          = some ⟨"pod-a".toList, "default".toList, "main".toList⟩
      ∧ table.find "GPU-1".toList = some ⟨"pod-a".toList, "default".toList, "main".toList⟩ :=
  C1_parsed_mig_id_registers_instance_and_uuid sampleEnv () _ _ _ _ _ _ 2 0
    (by decide) (by decide) (by rfl)

/-- C2: a device id under a qualifying resource grouping that starts with
`MIG_UUID_PREFIX` and that `nvml.ParseMigDeviceUUID` rejects: `ToDeviceToPod`
does not fail, and the table built from a response holding only that id has
exactly one binding, from the id without its leading `MIG_UUID_PREFIX` (which
is not validated) to the owning pod; no instance key is registered. -/
theorem C2_unparsed_mig_id_registers_remainder {SystemInfo : Type}
    (env : Env SystemInfo) (sysInfo : SystemInfo)
    (podName ns containerName resourceName deviceid : GoString)
    (hq : qualifies env resourceName = true)
    (hpre : HasPrefix deviceid env.MIG_UUID_PREFIX = true)
    (hparse : env.ParseMigDeviceUUID deviceid = .error ()) :
    ToDeviceToPod env (singleResponse podName ns containerName resourceName [deviceid]) sysInfo
      = some [(deviceid.drop env.MIG_UUID_PREFIX.length, ⟨podName, ns, containerName⟩)] := by
  have hlen : env.MIG_UUID_PREFIX.length ≤ deviceid.length := by
    have h := List.isPrefixOf_iff_prefix.mp hpre
    exact h.length_le
  rw [ToDeviceToPod_single, if_pos hq, rangeLoop_single]
  simp only [registerDeviceId, hpre, if_true, hparse, sliceFrom, if_pos hlen, Option.map_some']
  rfl

theorem C2_unparsed_mig_id_witness :
    ToDeviceToPod sampleEnv (singleResponse "pod-a".toList "default".toList "main".toList
        "nvidia.com/gpu".toList ["MIG-not a uuid".toList]) ()
      = some [(("MIG-not a uuid".toList).drop sampleEnv.MIG_UUID_PREFIX.length,
          ⟨"pod-a".toList, "default".toList, "main".toList⟩)] :=
  C2_unparsed_mig_id_registers_remainder sampleEnv () _ _ _ _ _
    (by decide) (by decide) (by rfl)

theorem first_of_Index (s sep before : GoString) (h : Index s sep = some before.length) :
    ∀ a b, s = a ++ sep ++ b → before.length ≤ a.length := by
  have hs := Index_spec s sep
  rw [h] at hs
  exact hs.2.2

/-- C3: a device id `nvidia<N>/gi<M>` with `N` and `M` non-empty strings of
decimal digits, under a qualifying resource grouping: the table built from a
response holding only that id has exactly one binding, from `<N>-<M>` (the
digits verbatim, leading zeros included) to the owning pod.  `MIG_UUID_PREFIX`
is declared outside `kubernetes.go`; it is assumed not to begin this id. -/
theorem C3_gke_mig_id_registers_index_pair {SystemInfo : Type}
    (env : Env SystemInfo) (sysInfo : SystemInfo)
    (podName ns containerName resourceName N M : GoString)
    (hq : qualifies env resourceName = true)
    (hN : N ≠ []) (hM : M ≠ [])
    (hNd : ∀ c ∈ N, isDigit c = true) (hMd : ∀ c ∈ M, isDigit c = true)
    (hpre : HasPrefix ("nvidia".toList ++ N ++ "/gi".toList ++ M) env.MIG_UUID_PREFIX = false) :
    ToDeviceToPod env (singleResponse podName ns containerName resourceName
        ["nvidia".toList ++ N ++ "/gi".toList ++ M]) sysInfo
      = some [(N ++ "-".toList ++ M, ⟨podName, ns, containerName⟩)] := by
  rw [ToDeviceToPod_single, if_pos hq, rangeLoop_single]
  simp only [registerDeviceId, hpre, gke_complete N M hN hM hNd hMd, gkeGroups_match]
  rfl

theorem C3_gke_mig_id_witness :
    ToDeviceToPod sampleEnv (singleResponse "pod-a".toList "default".toList "main".toList
        "nvidia.com/gpu".toList ["nvidia".toList ++ "00".toList ++ "/gi".toList ++ "07".toList]) ()
      = some [("00".toList ++ "-".toList ++ "07".toList,
          ⟨"pod-a".toList, "default".toList, "main".toList⟩)] :=
  C3_gke_mig_id_registers_index_pair sampleEnv () _ _ _ _ "00".toList "07".toList
    (by decide) (by decide) (by decide) (by decide) (by decide) (by decide)

/-- C4, as stated, fails: the id `MIG-GPU-1/vgpu0` contains `/vgpu` and the part
before the separator is `MIG-GPU-1`, but the id starts with `MIG-`, so the
first branch handles it: the parser rejects it and the only key registered is
`GPU-1/vgpu0`; nothing is registered under `MIG-GPU-1`. -/
theorem C4_counterexample_mig_marked_id :
    Contains "MIG-GPU-1/vgpu0".toList gkeVirtualGPUDeviceIdSeparator = true
    ∧ qualifies sampleEnv "nvidia.com/gpu".toList = true
    ∧ (Split "MIG-GPU-1/vgpu0".toList gkeVirtualGPUDeviceIdSeparator)[0]?
        = some "MIG-GPU-1".toList
    ∧ ToDeviceToPod sampleEnv (singleResponse "pod-a".toList "default".toList "main".toList
        "nvidia.com/gpu".toList ["MIG-GPU-1/vgpu0".toList]) ()
      = some [("GPU-1/vgpu0".toList, ⟨"pod-a".toList, "default".toList, "main".toList⟩)]
    ∧ GoMap.find [("GPU-1/vgpu0".toList,
        (⟨"pod-a".toList, "default".toList, "main".toList⟩ : PodInfo))] "MIG-GPU-1".toList
      = none := by
  decide

/-- C4, amended: a device id that does not start with `MIG_UUID_PREFIX` and
contains `/vgpu`, under a qualifying resource grouping: the table built from a
response holding only that id has exactly one binding, from the part of the id
before the first `/vgpu` to the owning pod, whatever follows the separator
(nothing included). -/
theorem C4_vgpu_id_registers_part_before_separator {SystemInfo : Type}
    (env : Env SystemInfo) (sysInfo : SystemInfo)
    (podName ns containerName resourceName before after : GoString)
    (hq : qualifies env resourceName = true)
    (hpre : HasPrefix (before ++ gkeVirtualGPUDeviceIdSeparator ++ after)
      env.MIG_UUID_PREFIX = false)
    (hfirst : ∀ a b, before ++ gkeVirtualGPUDeviceIdSeparator ++ after
      = a ++ gkeVirtualGPUDeviceIdSeparator ++ b → before.length ≤ a.length) :
    ToDeviceToPod env (singleResponse podName ns containerName resourceName
        [before ++ gkeVirtualGPUDeviceIdSeparator ++ after]) sysInfo
      = some [(before, ⟨podName, ns, containerName⟩)] := by
  have hc : Contains (before ++ gkeVirtualGPUDeviceIdSeparator ++ after)
      gkeVirtualGPUDeviceIdSeparator = true := (Contains_iff _ _).mpr ⟨before, after, rfl⟩
  have hg : gkeMigDeviceIdRegex_FindStringSubmatch
      (before ++ gkeVirtualGPUDeviceIdSeparator ++ after) = none := by
    cases hm : gkeMigDeviceIdRegex_FindStringSubmatch
        (before ++ gkeVirtualGPUDeviceIdSeparator ++ after) with
    | none => rfl
    | some l =>
      have := gke_not_Contains_vgpu _ l hm
      rw [hc] at this
      exact absurd this (by simp)
  rw [ToDeviceToPod_single, if_pos hq, rangeLoop_single]
  simp only [registerDeviceId, hpre, hg, hc, if_true,
    Split_head_first before gkeVirtualGPUDeviceIdSeparator after (by decide) hfirst]
  rfl

theorem C4_vgpu_id_witness :
    ToDeviceToPod sampleEnv (singleResponse "pod-a".toList "default".toList "main".toList
        "nvidia.com/gpu".toList
        ["GPU-1".toList ++ gkeVirtualGPUDeviceIdSeparator ++ "0/vgpu1".toList]) ()
      = some [("GPU-1".toList, ⟨"pod-a".toList, "default".toList, "main".toList⟩)] :=
  C4_vgpu_id_registers_part_before_separator sampleEnv () _ _ _ _ "GPU-1".toList
    "0/vgpu1".toList (by decide) (by decide) (first_of_Index _ _ "GPU-1".toList (by decide))

/-- C5, as stated, fails: the id `GPU-1/vgpu0::x` contains `::` and the part
before the first `::` is `GPU-1/vgpu0`, but the id also contains `/vgpu`, which
is tested first: the only key registered is `GPU-1`.  Likewise `MIG-a::b`
starts with `MIG-`; the parser rejects it and the only key is `a::b`. -/
theorem C5_counterexample_earlier_rules_win :
    Contains "GPU-1/vgpu0::x".toList "::".toList = true
    ∧ qualifies sampleEnv "nvidia.com/gpu".toList = true
    ∧ (Split "GPU-1/vgpu0::x".toList "::".toList)[0]? = some "GPU-1/vgpu0".toList
    ∧ ToDeviceToPod sampleEnv (singleResponse "pod-a".toList "default".toList "main".toList
        "nvidia.com/gpu".toList ["GPU-1/vgpu0::x".toList]) ()
      = some [("GPU-1".toList, ⟨"pod-a".toList, "default".toList, "main".toList⟩)]
    ∧ GoMap.find [("GPU-1".toList,
        (⟨"pod-a".toList, "default".toList, "main".toList⟩ : PodInfo))] "GPU-1/vgpu0".toList
      = none
    ∧ Contains "MIG-a::b".toList "::".toList = true
    ∧ ToDeviceToPod sampleEnv (singleResponse "pod-a".toList "default".toList "main".toList
        "nvidia.com/gpu".toList ["MIG-a::b".toList]) ()
      = some [("a::b".toList, ⟨"pod-a".toList, "default".toList, "main".toList⟩)] := by
  decide

/-- C5, amended: a device id that does not start with `MIG_UUID_PREFIX`, does
not contain `/vgpu` and contains `::`, under a qualifying resource grouping:
the table built from a response holding only that id has exactly one binding,
from the substring of the id before the first `::` to the owning pod, also
when `::` occurs several times. -/
theorem C5_colon_id_registers_part_before_first {SystemInfo : Type}
    (env : Env SystemInfo) (sysInfo : SystemInfo)
    (podName ns containerName resourceName before after : GoString)
    (hq : qualifies env resourceName = true)
    (hpre : HasPrefix (before ++ "::".toList ++ after) env.MIG_UUID_PREFIX = false)
    (hvgpu : Contains (before ++ "::".toList ++ after) gkeVirtualGPUDeviceIdSeparator = false)
    (hfirst : ∀ a b, before ++ "::".toList ++ after = a ++ "::".toList ++ b
      → before.length ≤ a.length) :
    ToDeviceToPod env (singleResponse podName ns containerName resourceName
        [before ++ "::".toList ++ after]) sysInfo
      = some [(before, ⟨podName, ns, containerName⟩)] := by
  have hc : Contains (before ++ "::".toList ++ after) "::".toList = true :=
    (Contains_iff _ _).mpr ⟨before, after, rfl⟩
  have hg : gkeMigDeviceIdRegex_FindStringSubmatch (before ++ "::".toList ++ after) = none := by
    cases hm : gkeMigDeviceIdRegex_FindStringSubmatch (before ++ "::".toList ++ after) with
    | none => rfl
    | some l =>
      have := gke_not_Contains_colons _ l hm
      rw [hc] at this
      exact absurd this (by simp)
  rw [ToDeviceToPod_single, if_pos hq, rangeLoop_single]
  simp only [registerDeviceId, hpre, hg, hvgpu, hc, if_true,
    Split_head_first before "::".toList after (by decide) hfirst]
  rfl

theorem C5_colon_id_witness :
    ToDeviceToPod sampleEnv (singleResponse "pod-a".toList "default".toList "main".toList
        "nvidia.com/gpu".toList ["GPU-1".toList ++ "::".toList ++ "7::8".toList]) ()
      = some [("GPU-1".toList, ⟨"pod-a".toList, "default".toList, "main".toList⟩)] :=
  C5_colon_id_registers_part_before_first sampleEnv () _ _ _ _ "GPU-1".toList "7::8".toList
    (by decide) (by decide) (by decide) (first_of_Index _ _ "GPU-1".toList (by decide))

/-- C6: a device id under a qualifying resource grouping that does not start
with `MIG_UUID_PREFIX`, does not match `^nvidia([0-9]+)/gi([0-9]+)$`, and
contains neither `/vgpu` nor `::`: the table built from a response holding
only that id has exactly one binding, from the id itself to the owning pod. -/
theorem C6_default_rule_keeps_id {SystemInfo : Type}
    (env : Env SystemInfo) (sysInfo : SystemInfo)
    (podName ns containerName resourceName deviceid : GoString)
    (hq : qualifies env resourceName = true)
    (hpre : HasPrefix deviceid env.MIG_UUID_PREFIX = false)
    (hgke : gkeMigDeviceIdRegex_FindStringSubmatch deviceid = none)
    (hvgpu : Contains deviceid gkeVirtualGPUDeviceIdSeparator = false)
    (hcolon : Contains deviceid "::".toList = false) :
    ToDeviceToPod env (singleResponse podName ns containerName resourceName [deviceid]) sysInfo
      = some [(deviceid, ⟨podName, ns, containerName⟩)] := by
  rw [ToDeviceToPod_single, if_pos hq, rangeLoop_single]
  simp only [registerDeviceId, hpre, hgke, hvgpu, hcolon]
  rfl

theorem C6_default_rule_witness :
    ToDeviceToPod sampleEnv (singleResponse "pod-a".toList "default".toList "main".toList
        "nvidia.com/gpu".toList ["GPU-1234".toList]) ()
      = some [("GPU-1234".toList, ⟨"pod-a".toList, "default".toList, "main".toList⟩)] :=
  C6_default_rule_keeps_id sampleEnv () _ _ _ _ _
    (by decide) (by decide) (by decide) (by decide) (by decide)

/-! ## The table as a fold over the assignments -/

theorem rangeLoop_flatMap {σ α β : Type} (body : σ → α → Option σ) (step : σ → β → σ)
    (f : α → List β) (h : ∀ s x, body s x = some ((f x).foldl step s)) (s : σ) (xs : List α) :
    rangeLoop body s xs = some ((xs.flatMap f).foldl step s) := by
  induction xs generalizing s with
  | nil => rfl
  | cons x xs ih =>
    simp only [rangeLoop, h, Option.some_bind, ih, List.flatMap_cons, List.foldl_append]

theorem rangeLoop_deviceIds {SystemInfo : Type} (env : Env SystemInfo) (sysInfo : SystemInfo)
    (podInfo : PodInfo) (m : GoMap PodInfo) (ids : List GoString) :
    rangeLoop (registerDeviceId env sysInfo podInfo) m ids
      = some ((ids.map (fun deviceid => (podInfo, deviceid))).foldl
          (registerAssignment env sysInfo) m) := by
  induction ids generalizing m with
  | nil => rfl
  | cons x xs ih =>
    simp only [rangeLoop, registerDeviceId_eq, Option.some_bind, ih, List.map_cons,
      List.foldl_cons, registerAssignment]

/-- `ToDeviceToPod` never panics; its table is the assignments registered one
after the other, starting from the empty table. -/
theorem ToDeviceToPod_eq {SystemInfo : Type} (env : Env SystemInfo)
    (devicePods : Option ListPodResourcesResponse) (sysInfo : SystemInfo) :
    ToDeviceToPod env devicePods sysInfo
      = some ((assignments env devicePods).foldl (registerAssignment env sysInfo) []) := by
  unfold ToDeviceToPod assignments
  apply rangeLoop_flatMap
  intro s pod
  unfold forPod
  apply rangeLoop_flatMap
  intro s container
  unfold forContainer
  apply rangeLoop_flatMap
  intro s device
  unfold forDevice
  by_cases hq : qualifies env (ContainerDevices.GetResourceName device) = true
  · simp only [hq, if_true]
    exact rangeLoop_deviceIds env sysInfo _ s _
  · simp only [hq, if_false, Bool.false_eq_true, List.foldl_nil]

theorem find_assignAll (m : GoMap PodInfo) (keys : List GoString) (podInfo : PodInfo)
    (k : GoString) :
    (assignAll m keys podInfo).find k = if k ∈ keys then some podInfo else m.find k := by
  unfold assignAll
  induction keys generalizing m with
  | nil => simp
  | cons x xs ih =>
    simp only [List.foldl_cons, ih, GoMap.find_assign, List.mem_cons]
    by_cases h1 : k ∈ xs
    · simp [h1]
    · by_cases h2 : k = x
      · simp [h2]
      · simp [h1, h2]

/-- Reading a key after registering a list of assignments: the pod of the last
assignment producing the key, else what the table held before. -/
theorem find_foldl_registerAssignment {SystemInfo : Type} (env : Env SystemInfo)
    (sysInfo : SystemInfo) (as : List (PodInfo × GoString)) (m : GoMap PodInfo)
    (k : GoString) :
    (as.foldl (registerAssignment env sysInfo) m).find k
      = ((as.reverse.find? (fun a => decide (k ∈ deviceKeys env sysInfo a.2))).map
          Prod.fst).or (m.find k) := by
  induction as generalizing m with
  | nil => simp
  | cons a as ih =>
    simp only [List.foldl_cons, ih, List.reverse_cons, List.find?_append, List.find?_singleton,
      registerAssignment, find_assignAll]
    cases hf : as.reverse.find? (fun a => decide (k ∈ deviceKeys env sysInfo a.2)) with
    | some b => simp
    | none =>
      by_cases hk : k ∈ deviceKeys env sysInfo a.2
      · simp [hk]
      · simp [hk]

/-! ## Precedence of the rules -/

theorem firstRule_applies {SystemInfo : Type} (env : Env SystemInfo) (deviceid : GoString) :
    (firstRule env deviceid).applies env deviceid = true := by
  have h5 : Rule.applies env Rule.fallback deviceid = true := rfl
  unfold firstRule Rule.order
  cases h1 : Rule.applies env Rule.migUuid deviceid <;>
  cases h2 : Rule.applies env Rule.gkeMig deviceid <;>
  cases h3 : Rule.applies env Rule.virtualGpu deviceid <;>
  cases h4 : Rule.applies env Rule.doubleColon deviceid <;>
  simp only [List.find?_cons, h1, h2, h3, h4, h5, Option.getD_some]

theorem firstRule_least {SystemInfo : Type} (env : Env SystemInfo) (deviceid : GoString)
    (r : Rule) (hr : r.rank < (firstRule env deviceid).rank) :
    r.applies env deviceid = false := by
  have h5 : Rule.applies env Rule.fallback deviceid = true := rfl
  unfold firstRule Rule.order at hr
  cases h1 : Rule.applies env Rule.migUuid deviceid <;>
  cases h2 : Rule.applies env Rule.gkeMig deviceid <;>
  cases h3 : Rule.applies env Rule.virtualGpu deviceid <;>
  cases h4 : Rule.applies env Rule.doubleColon deviceid <;>
  simp only [List.find?_cons, h1, h2, h3, h4, h5, Option.getD_some] at hr <;>
  cases r <;>
  first
    | exact h1
    | exact h2
    | exact h3
    | exact h4
    | exact absurd hr (by decide)

theorem firstRule_migUuid {SystemInfo : Type} (env : Env SystemInfo) (deviceid : GoString)
    (h : HasPrefix deviceid env.MIG_UUID_PREFIX = true) :
    firstRule env deviceid = Rule.migUuid := by
  unfold firstRule Rule.order
  simp [List.find?_cons, Rule.applies, h]

theorem firstRule_virtualGpu {SystemInfo : Type} (env : Env SystemInfo) (deviceid : GoString)
    (h1 : HasPrefix deviceid env.MIG_UUID_PREFIX = false)
    (h3 : Contains deviceid gkeVirtualGPUDeviceIdSeparator = true) :
    firstRule env deviceid = Rule.virtualGpu := by
  have h2 : gkeMigDeviceIdRegex_FindStringSubmatch deviceid = none := by
    cases hm : gkeMigDeviceIdRegex_FindStringSubmatch deviceid with
    | none => rfl
    | some l =>
      have := gke_not_Contains_vgpu _ l hm
      rw [h3] at this
      exact absurd this (by simp)
  unfold firstRule Rule.order
  simp [List.find?_cons, Rule.applies, h1, h2, h3]

/-- C7, as stated, fails in its last clause: the id `MIG-a/vgpu0::b` contains
both `/vgpu` and `::`, but it starts with `MIG-`, so rule 1 handles it: the
parser rejects it and the only key bound is `a/vgpu0::b`, not the key `MIG-a`
that rule 3 would give. -/
theorem C7_counterexample_marked_id_with_both_separators :
    HasPrefix "MIG-a/vgpu0::b".toList sampleEnv.MIG_UUID_PREFIX = true
    ∧ Contains "MIG-a/vgpu0::b".toList gkeVirtualGPUDeviceIdSeparator = true
    ∧ Contains "MIG-a/vgpu0::b".toList "::".toList = true
    ∧ firstRule sampleEnv "MIG-a/vgpu0::b".toList = Rule.migUuid
    ∧ Rule.keys sampleEnv () Rule.virtualGpu "MIG-a/vgpu0::b".toList = ["MIG-a".toList]
    ∧ registerDeviceId sampleEnv () ⟨"pod-a".toList, "default".toList, "main".toList⟩ []
        "MIG-a/vgpu0::b".toList
      = some [("a/vgpu0::b".toList, ⟨"pod-a".toList, "default".toList, "main".toList⟩)] := by
  decide

/-- C7, amended: the handling of one device id is a strict ordered decision
list.  The body of the device-id loop binds, to the owning pod, exactly the
keys of the first rule whose condition the id satisfies, in the order (1)
`MIG_UUID_PREFIX` prefix, (2) the `nvidia<N>/gi<M>` pattern, (3) contains
`/vgpu`, (4) contains `::`, (5) default; no rule before it matches and no later
rule contributes.  In particular an id starting with `MIG_UUID_PREFIX` is
handled by rule 1 whatever else it contains, and an id that does not start
with `MIG_UUID_PREFIX` and contains both `/vgpu` and `::` is handled by
rule 3. -/
theorem C7_first_matching_rule_decides {SystemInfo : Type} (env : Env SystemInfo)
    (sysInfo : SystemInfo) (podInfo : PodInfo) (m : GoMap PodInfo) (deviceid : GoString) :
    registerDeviceId env sysInfo podInfo m deviceid
        = some (assignAll m ((firstRule env deviceid).keys env sysInfo deviceid) podInfo)
    ∧ (firstRule env deviceid).applies env deviceid = true
    ∧ (∀ r : Rule, r.rank < (firstRule env deviceid).rank → r.applies env deviceid = false)
    ∧ (HasPrefix deviceid env.MIG_UUID_PREFIX = true →
        firstRule env deviceid = Rule.migUuid)
    ∧ (HasPrefix deviceid env.MIG_UUID_PREFIX = false →
        Contains deviceid gkeVirtualGPUDeviceIdSeparator = true →
        Contains deviceid "::".toList = true →
        firstRule env deviceid = Rule.virtualGpu) := by
  refine ⟨registerDeviceId_eq env sysInfo podInfo m deviceid, firstRule_applies env deviceid,
    firstRule_least env deviceid, firstRule_migUuid env deviceid, ?_⟩
  intro h1 h3 _
  exact firstRule_virtualGpu env deviceid h1 h3

/-! ## Resource groupings that do not qualify -/

theorem flatMap_map_congr {α β : Type} (xs : List α) (g : α → α) (f : α → List β)
    (h : ∀ x, f (g x) = f x) : (xs.map g).flatMap f = xs.flatMap f := by
  induction xs with
  | nil => rfl
  | cons x xs ih => simp only [List.map_cons, List.flatMap_cons, h, ih]

theorem flatMap_filter_of_nil {α β : Type} (xs : List α) (p : α → Bool) (f : α → List β)
    (h : ∀ x, p x = false → f x = []) : (xs.filter p).flatMap f = xs.flatMap f := by
  induction xs with
  | nil => rfl
  | cons x xs ih =>
    cases hp : p x with
    | true => simp only [List.filter_cons, hp, if_true, List.flatMap_cons, ih]
    | false =>
      simp only [List.filter_cons, hp, Bool.false_eq_true, if_false, List.flatMap_cons, ih,
        h x hp, List.nil_append]

theorem assignments_keepQualifying {SystemInfo : Type} (env : Env SystemInfo)
    (devicePods : Option ListPodResourcesResponse) :
    assignments env (ListPodResourcesResponse.keepQualifying env devicePods)
      = assignments env devicePods := by
  cases devicePods with
  | none => rfl
  | some r =>
    unfold assignments
    simp only [ListPodResourcesResponse.keepQualifying, Option.map_some',
      ListPodResourcesResponse.GetPodResources]
    apply flatMap_map_congr
    intro pod
    cases pod with
    | none => rfl
    | some p =>
      simp only [PodResources.keepQualifying, Option.map_some', PodResources.GetContainers,
        PodResources.GetName, PodResources.GetNamespace]
      apply flatMap_map_congr
      intro container
      cases container with
      | none => rfl
      | some c =>
        simp only [ContainerResources.keepQualifying, Option.map_some',
          ContainerResources.GetDevices, ContainerResources.GetName]
        apply flatMap_filter_of_nil
        intro device hd
        rw [if_neg (by simp [hd])]

/-- C8: resource groupings whose name is neither `nvidiaResourceName` nor
prefixed by `nvidiaMigResourcePrefix` contribute nothing: for every response
and system information, `ToDeviceToPod` returns the table it returns for the
response with all such groupings removed, whatever device ids they list. -/
theorem C8_unqualified_groupings_are_ignored {SystemInfo : Type} (env : Env SystemInfo)
    (devicePods : Option ListPodResourcesResponse) (sysInfo : SystemInfo) :
    ToDeviceToPod env devicePods sysInfo
      = ToDeviceToPod env (ListPodResourcesResponse.keepQualifying env devicePods) sysInfo := by
  rw [ToDeviceToPod_eq, ToDeviceToPod_eq, assignments_keepQualifying]

/-! ## Last write wins -/

/-- C9: last write wins.  `ToDeviceToPod` raises no error, and for every
response and every key the table holds the pod of the last device id under a
qualifying grouping, in the order pods, containers, resource groupings, device
ids, that produces the key (and nothing at a key no id produces).  In
particular two pods that both list `GPU-aaa` under `nvidia.com/gpu` give a
table holding the second pod at `GPU-aaa`. -/
theorem C9_last_write_wins {SystemInfo : Type} (env : Env SystemInfo)
    (devicePods : Option ListPodResourcesResponse) (sysInfo : SystemInfo) :
    (∃ table : GoMap PodInfo,
      ToDeviceToPod env devicePods sysInfo = some table
      ∧ ∀ key, table.find key = lastOwner env sysInfo devicePods key)
    ∧ ToDeviceToPod sampleEnv
        (some { PodResources :=
          [some { Name := "first".toList, Namespace := "ns1".toList, Containers :=
            [some { Name := "c1".toList, Devices :=
              [some { ResourceName := "nvidia.com/gpu".toList,
                      DeviceIds := ["GPU-aaa".toList] }] }] },
           some { Name := "second".toList, Namespace := "ns2".toList, Containers :=
            [some { Name := "c2".toList, Devices :=
              [some { ResourceName := "nvidia.com/gpu".toList,
                      DeviceIds := ["GPU-aaa".toList] }] }] }] }) ()
      = some [("GPU-aaa".toList, ⟨"second".toList, "ns2".toList, "c2".toList⟩)] := by
  refine ⟨⟨_, ToDeviceToPod_eq env devicePods sysInfo, ?_⟩, by decide⟩
  intro key
  rw [find_foldl_registerAssignment]
  unfold lastOwner
  simp [GoMap.find]

/-! ## `Process`: the heap -/

theorem Heap.write_same (heap : Heap) (a : MapRef) (m : GoMap GoString) :
    (heap.write a m) a = m := by
  simp [Heap.write]

theorem Heap.write_other (heap : Heap) (a b : MapRef) (m : GoMap GoString) (h : b ≠ a) :
    (heap.write a m) b = heap b := by
  simp [Heap.write, h]

theorem Heap.write_write (heap : Heap) (a : MapRef) (m m1 : GoMap GoString) :
    (heap.write a m).write a m1 = heap.write a m1 := by
  funext b
  by_cases h : b = a
  · simp [Heap.write, h]
  · simp [Heap.write, h]

/-- The map object a record's three writes leave at its address. -/
theorem writePodInfo_eq {SystemInfo F IdType Err : Type}
    (penv : ProcEnv SystemInfo F IdType Err) (cfg : Config IdType) (info : PodInfo)
    (heap : Heap) (m : Metric F) :
    writePodInfo penv cfg info heap m
      = m.Attributes.map (fun a =>
          heap.write a ((((heap a).assign (selectedAttributes penv cfg).1 info.Name).assign
            (selectedAttributes penv cfg).2.1 info.Namespace).assign
            (selectedAttributes penv cfg).2.2 info.Container)) := by
  unfold writePodInfo selectedAttributes Metric.setAttribute
  cases hu : cfg.UseOldNamespace <;> cases ha : m.Attributes <;>
    simp [Heap.write_same, Heap.write_write]

theorem index_of_find_none (table : GoMap PodInfo) (k : GoString) (h : table.find k = none) :
    table.index k = PodInfo.zero := by
  unfold GoMap.index
  rw [h]
  rfl

/-! ## `Process`: the annotation loop, record by record -/

theorem annotateDevice_append {SystemInfo F IdType Err : Type}
    (penv : ProcEnv SystemInfo F IdType Err) (cfg : Config IdType) (table : GoMap PodInfo)
    (l1 l2 : List (Metric F)) (heap : Heap) :
    annotateDevice penv cfg table (l1 ++ l2) heap
      = match annotateDevice penv cfg table l1 heap with
        | none => none
        | some (some err, heap1) => some (some err, heap1)
        | some (none, heap1) => annotateDevice penv cfg table l2 heap1 := by
  induction l1 generalizing heap with
  | nil => simp [annotateDevice]
  | cons val rest ih =>
    simp only [List.cons_append, annotateDevice]
    cases penv.getIDOfType val cfg.KubernetesGPUIdType with
    | error err => rfl
    | ok deviceId =>
      simp only
      cases writePodInfo penv cfg (table.index deviceId) heap val with
      | none => rfl
      | some heap1 =>
        simp only
        exact ih heap1

/-- The two nested loops visit the records in the order of the flattened
slice. -/
theorem annotateMetrics_flatten {SystemInfo F IdType Err : Type}
    (penv : ProcEnv SystemInfo F IdType Err) (cfg : Config IdType) (table : GoMap PodInfo)
    (metrics : List (List (Metric F))) (heap : Heap) :
    annotateMetrics penv cfg table metrics heap
      = annotateDevice penv cfg table metrics.flatten heap := by
  induction metrics generalizing heap with
  | nil => rfl
  | cons device rest ih =>
    rw [List.flatten_cons, annotateDevice_append]
    simp only [annotateMetrics]
    cases annotateDevice penv cfg table device heap with
    | none => rfl
    | some r =>
      obtain ⟨e, heap1⟩ := r
      cases e with
      | none => exact ih heap1
      | some err => rfl

/-- A map that none of the visited records holds is left as it was. -/
theorem annotateDevice_other_maps {SystemInfo F IdType Err : Type}
    (penv : ProcEnv SystemInfo F IdType Err) (cfg : Config IdType) (table : GoMap PodInfo)
    (l : List (Metric F)) (heap heap1 : Heap) (e : Option Err)
    (h : annotateDevice penv cfg table l heap = some (e, heap1)) (a : MapRef)
    (ha : ∀ r ∈ l, r.Attributes ≠ some a) : heap1 a = heap a := by
  induction l generalizing heap with
  | nil =>
    simp only [annotateDevice, Option.some.injEq, Prod.mk.injEq] at h
    rw [← h.2]
  | cons val rest ih =>
    unfold annotateDevice at h
    cases hid : penv.getIDOfType val cfg.KubernetesGPUIdType with
    | error err =>
      rw [hid] at h
      simp only [Option.some.injEq, Prod.mk.injEq] at h
      rw [← h.2]
    | ok deviceId =>
      rw [hid] at h
      simp only at h
      rw [writePodInfo_eq] at h
      cases hattr : val.Attributes with
      | none =>
        rw [hattr] at h
        simp at h
      | some b =>
        rw [hattr] at h
        simp only [Option.map_some'] at h
        have hne : a ≠ b := by
          intro hab
          apply ha val (List.mem_cons_self _ _)
          rw [hattr, hab]
        rw [ih _ h (fun r hr => ha r (List.mem_cons_of_mem _ hr)), Heap.write_other _ _ _ _ hne]

/-- No attribute name other than the three selected ones is written, in any
map. -/
theorem annotateDevice_other_names {SystemInfo F IdType Err : Type}
    (penv : ProcEnv SystemInfo F IdType Err) (cfg : Config IdType) (table : GoMap PodInfo)
    (l : List (Metric F)) (heap heap1 : Heap) (e : Option Err)
    (h : annotateDevice penv cfg table l heap = some (e, heap1)) (a : MapRef) (k : GoString)
    (h1 : k ≠ (selectedAttributes penv cfg).1) (h2 : k ≠ (selectedAttributes penv cfg).2.1)
    (h3 : k ≠ (selectedAttributes penv cfg).2.2) :
    (heap1 a).find k = (heap a).find k := by
  induction l generalizing heap with
  | nil =>
    simp only [annotateDevice, Option.some.injEq, Prod.mk.injEq] at h
    rw [← h.2]
  | cons val rest ih =>
    unfold annotateDevice at h
    cases hid : penv.getIDOfType val cfg.KubernetesGPUIdType with
    | error err =>
      rw [hid] at h
      simp only [Option.some.injEq, Prod.mk.injEq] at h
      rw [← h.2]
    | ok deviceId =>
      rw [hid] at h
      simp only at h
      rw [writePodInfo_eq] at h
      cases hattr : val.Attributes with
      | none =>
        rw [hattr] at h
        simp at h
      | some b =>
        rw [hattr] at h
        simp only [Option.map_some'] at h
        rw [ih _ h]
        by_cases hab : a = b
        · subst hab
          rw [Heap.write_same]
          simp only [GoMap.find_assign, if_neg h1, if_neg h2, if_neg h3]
        · rw [Heap.write_other _ _ _ _ hab]

/-- A loop that ran through a list ran through the part before any of its
records, wrote that record, and ran through the part after it. -/
theorem annotateDevice_ok_split {SystemInfo F IdType Err : Type}
    (penv : ProcEnv SystemInfo F IdType Err) (cfg : Config IdType) (table : GoMap PodInfo)
    (before after : List (Metric F)) (r : Metric F) (heap heap1 : Heap)
    (h : annotateDevice penv cfg table (before ++ r :: after) heap = some (none, heap1)) :
    ∃ heap0 deviceId a,
      annotateDevice penv cfg table before heap = some (none, heap0)
      ∧ penv.getIDOfType r cfg.KubernetesGPUIdType = .ok deviceId
      ∧ r.Attributes = some a
      ∧ annotateDevice penv cfg table after
          (heap0.write a ((((heap0 a).assign (selectedAttributes penv cfg).1
            (table.index deviceId).Name).assign (selectedAttributes penv cfg).2.1
            (table.index deviceId).Namespace).assign (selectedAttributes penv cfg).2.2
            (table.index deviceId).Container)) = some (none, heap1) := by
  rw [annotateDevice_append] at h
  cases hb : annotateDevice penv cfg table before heap with
  | none =>
    rw [hb] at h
    simp at h
  | some res =>
    obtain ⟨e, heap0⟩ := res
    cases e with
    | some err =>
      rw [hb] at h
      simp at h
    | none =>
      rw [hb] at h
      simp only at h
      unfold annotateDevice at h
      cases hid : penv.getIDOfType r cfg.KubernetesGPUIdType with
      | error err =>
        rw [hid] at h
        simp at h
      | ok deviceId =>
        rw [hid] at h
        simp only at h
        rw [writePodInfo_eq] at h
        cases hattr : r.Attributes with
        | none =>
          rw [hattr] at h
          simp at h
        | some a =>
          rw [hattr] at h
          simp only [Option.map_some'] at h
          exact ⟨heap0, deviceId, a, rfl, rfl, rfl, h⟩

/-- A loop that ran through a list leaves every record annotated that holds a
map no later record holds. -/
theorem annotateDevice_annotated {SystemInfo F IdType Err : Type}
    (penv : ProcEnv SystemInfo F IdType Err) (cfg : Config IdType) (table : GoMap PodInfo)
    (h12 : (selectedAttributes penv cfg).1 ≠ (selectedAttributes penv cfg).2.1)
    (h13 : (selectedAttributes penv cfg).1 ≠ (selectedAttributes penv cfg).2.2)
    (h23 : (selectedAttributes penv cfg).2.1 ≠ (selectedAttributes penv cfg).2.2)
    (records : List (Metric F)) (heap heap1 : Heap)
    (h : annotateDevice penv cfg table records heap = some (none, heap1)) :
    LastHoldersAnnotated penv cfg table heap1 records := by
  intro before r after hrec hlast
  subst hrec
  obtain ⟨heap0, deviceId, a, -, hid, hattr, hafter⟩ :=
    annotateDevice_ok_split penv cfg table before after r heap heap1 h
  have hkeep := annotateDevice_other_maps penv cfg table after _ heap1 none hafter a
    (fun r2 hr2 => by rw [← hattr]; exact hlast r2 hr2)
  rw [Heap.write_same] at hkeep
  have hattrs : r.attribute heap1 (selectedAttributes penv cfg).1
        = some (table.index deviceId).Name
      ∧ r.attribute heap1 (selectedAttributes penv cfg).2.1
        = some (table.index deviceId).Namespace
      ∧ r.attribute heap1 (selectedAttributes penv cfg).2.2
        = some (table.index deviceId).Container := by
    simp only [Metric.attribute, hattr, Option.some_bind, hkeep, GoMap.find_assign]
    refine ⟨?_, ?_, ?_⟩
    · rw [if_neg h13, if_neg h12]
      simp
    · rw [if_neg h23]
      simp
    · simp
  refine ⟨deviceId, hid, hattrs.1, hattrs.2.1, hattrs.2.2, ?_⟩
  intro hnone
  rw [index_of_find_none table deviceId hnone] at hattrs
  exact hattrs

/-- A loop that ran through a list computed the id of every record, and every
record holds a map. -/
theorem annotateDevice_all_visited {SystemInfo F IdType Err : Type}
    (penv : ProcEnv SystemInfo F IdType Err) (cfg : Config IdType) (table : GoMap PodInfo)
    (records : List (Metric F)) (heap heap1 : Heap)
    (h : annotateDevice penv cfg table records heap = some (none, heap1)) :
    ∀ r ∈ records, ∃ deviceId a,
      penv.getIDOfType r cfg.KubernetesGPUIdType = .ok deviceId ∧ r.Attributes = some a := by
  intro r hr
  obtain ⟨before, after, hsplit⟩ := List.append_of_mem hr
  subst hsplit
  obtain ⟨_, deviceId, a, -, hid, hattr, -⟩ :=
    annotateDevice_ok_split penv cfg table before after r heap heap1 h
  exact ⟨deviceId, a, hid, hattr⟩

/-- A loop that returned an error ran through the records before the first
one whose id cannot be computed, and stopped there. -/
theorem annotateDevice_err_split {SystemInfo F IdType Err : Type}
    (penv : ProcEnv SystemInfo F IdType Err) (cfg : Config IdType) (table : GoMap PodInfo)
    (records : List (Metric F)) (heap heap1 : Heap) (err : Err)
    (h : annotateDevice penv cfg table records heap = some (some err, heap1)) :
    ∃ done failing left, records = done ++ failing :: left
      ∧ penv.getIDOfType failing cfg.KubernetesGPUIdType = .error err
      ∧ annotateDevice penv cfg table done heap = some (none, heap1) := by
  induction records generalizing heap with
  | nil => simp [annotateDevice] at h
  | cons val rest ih =>
    unfold annotateDevice at h
    cases hid : penv.getIDOfType val cfg.KubernetesGPUIdType with
    | error err0 =>
      rw [hid] at h
      simp only [Option.some.injEq, Prod.mk.injEq] at h
      obtain ⟨he, hh⟩ := h
      subst he hh
      exact ⟨[], val, rest, rfl, hid, rfl⟩
    | ok deviceId =>
      rw [hid] at h
      simp only at h
      cases hw : writePodInfo penv cfg (table.index deviceId) heap val with
      | none =>
        rw [hw] at h
        simp at h
      | some heap0 =>
        rw [hw] at h
        simp only at h
        obtain ⟨done, failing, left, hsplit, hfail, hdone⟩ := ih heap0 h
        refine ⟨val :: done, failing, left, by rw [hsplit]; rfl, hfail, ?_⟩
        simp only [annotateDevice, hid, hw]
        exact hdone

/-- Past the socket test, connecting and listing, `Process` is the annotation
loop over the flattened records, with the table of `ToDeviceToPod`. -/
theorem Process_eq_loop {SystemInfo F IdType Err : Type}
    (penv : ProcEnv SystemInfo F IdType Err) (cfg : Config IdType) (kubelet : Kubelet Err)
    (metrics : List (List (Metric F))) (heap : Heap) (sysInfo : SystemInfo)
    (pods : Option ListPodResourcesResponse) (u : Unit)
    (hstat : kubelet.statIsNotExist = false)
    (hconn : kubelet.connectToServer = .ok u)
    (hlist : kubelet.ListPods = .ok pods) :
    Process penv cfg kubelet metrics heap sysInfo
      = (annotateDevice penv cfg
          ((assignments penv.toEnv pods).foldl (registerAssignment penv.toEnv sysInfo) [])
          metrics.flatten heap).map (fun r => (r.1, metrics, r.2)) := by
  unfold Process
  simp only [hstat, hconn, hlist, Bool.false_eq_true, if_false]
  rw [ToDeviceToPod_eq]
  simp only [annotateMetrics_flatten]

/-! ## `Process`: annotation of the records -/

/-- C10, as stated, fails: two records keyed `GPU-1234` and `GPU-9999` that hold
the same attribute map.  `Process` returns no error, the table maps `GPU-1234`
to `pod-a`, and the writes for `GPU-9999` go to the same map object afterwards:
the record keyed `GPU-1234` ends with three empty strings, its `pod` attribute
is not `pod-a`. -/
theorem C10_counterexample_shared_attribute_map :
    (Process samplePenv ⟨(), false⟩ sampleKubelet sharedMapMetrics Heap.empty ()).map
        (fun r => (r.1, r.2.2 0))
      = some (none, [("container".toList, []), ("namespace".toList, []), ("pod".toList, [])])
    ∧ ToDeviceToPod samplePenv.toEnv
        (singleResponse "pod-a".toList "default".toList "main".toList
          "nvidia.com/gpu".toList ["GPU-1234".toList]) ()
      = some [("GPU-1234".toList, ⟨"pod-a".toList, "default".toList, "main".toList⟩)]
    ∧ (Process samplePenv ⟨(), false⟩ sampleKubelet sharedMapMetrics Heap.empty ()).map
        (fun r => Metric.attribute r.2.2
          ({ Fields := "GPU-1234".toList, Attributes := some 0 } : Metric GoString)
          "pod".toList)
      = some (some [])
    ∧ (GoMap.index [("GPU-1234".toList,
          (⟨"pod-a".toList, "default".toList, "main".toList⟩ : PodInfo))]
        "GPU-1234".toList).Name = "pod-a".toList := by
  decide

/-- C10, amended: when the socket exists, connecting and listing succeed and
`Process` returns no error, the id of every metric record of every group has
been computed (no record is skipped), and every record that holds an
attribute map no later record holds, in the order of iteration, has the three
attributes of the selected name set equal to the name, namespace and container
of the table entry at the record's own id (`getIDOfType` of
`Config.KubernetesGPUIdType`), and equal to the empty string, all three, when
the id is absent from the table.  The attribute names are declared outside
`kubernetes.go`; the three selected ones are assumed pairwise distinct. -/
theorem C10_last_holders_are_annotated {SystemInfo F IdType Err : Type}
    (penv : ProcEnv SystemInfo F IdType Err) (cfg : Config IdType) (kubelet : Kubelet Err)
    (metrics : List (List (Metric F))) (heap : Heap) (sysInfo : SystemInfo)
    (pods : Option ListPodResourcesResponse)
    (hstat : kubelet.statIsNotExist = false)
    (hconn : kubelet.connectToServer = .ok ())
    (hlist : kubelet.ListPods = .ok pods)
    (h12 : (selectedAttributes penv cfg).1 ≠ (selectedAttributes penv cfg).2.1)
    (h13 : (selectedAttributes penv cfg).1 ≠ (selectedAttributes penv cfg).2.2)
    (h23 : (selectedAttributes penv cfg).2.1 ≠ (selectedAttributes penv cfg).2.2)
    (hret : (Process penv cfg kubelet metrics heap sysInfo).map Prod.fst = some none) :
    ∃ (table : GoMap PodInfo) (heap1 : Heap),
      ToDeviceToPod penv.toEnv pods sysInfo = some table
      ∧ Process penv cfg kubelet metrics heap sysInfo = some (none, metrics, heap1)
      ∧ (∀ r ∈ metrics.flatten, ∃ deviceId a,
          penv.getIDOfType r cfg.KubernetesGPUIdType = .ok deviceId ∧ r.Attributes = some a)
      ∧ LastHoldersAnnotated penv cfg table heap1 metrics.flatten := by
  rw [Process_eq_loop penv cfg kubelet metrics heap sysInfo pods () hstat hconn hlist] at hret ⊢
  cases hloop : annotateDevice penv cfg
      ((assignments penv.toEnv pods).foldl (registerAssignment penv.toEnv sysInfo) [])
      metrics.flatten heap with
  | none =>
    rw [hloop] at hret
    simp at hret
  | some res =>
    obtain ⟨e, heap1⟩ := res
    rw [hloop] at hret
    simp only [Option.map_some', Option.some.injEq] at hret
    subst hret
    exact ⟨_, heap1, ToDeviceToPod_eq penv.toEnv pods sysInfo, rfl,
      annotateDevice_all_visited penv cfg _ _ heap heap1 hloop,
      annotateDevice_annotated penv cfg _ h12 h13 h23 _ heap heap1 hloop⟩

theorem C10_last_holders_witness :
    (Process samplePenv ⟨(), false⟩ sampleKubelet sampleMetrics Heap.empty ()).map
        (fun r => (r.1, r.2.2 0))
      = some (none,
          [("container".toList, "main".toList), ("namespace".toList, "default".toList),
            ("pod".toList, "pod-a".toList)])
    ∧ (Process samplePenv ⟨(), false⟩ sampleKubelet sampleMetrics Heap.empty ()).map
        (fun r => r.2.2 1)
      = some [("container".toList, []), ("namespace".toList, []), ("pod".toList, [])]
    ∧ ∃ (table : GoMap PodInfo) (heap1 : Heap),
      ToDeviceToPod samplePenv.toEnv
        (singleResponse "pod-a".toList "default".toList "main".toList
          "nvidia.com/gpu".toList ["GPU-1234".toList]) () = some table
      ∧ Process samplePenv ⟨(), false⟩ sampleKubelet sampleMetrics Heap.empty ()
          = some (none, sampleMetrics, heap1)
      ∧ (∀ r ∈ sampleMetrics.flatten, ∃ deviceId a,
          samplePenv.getIDOfType r () = .ok deviceId ∧ r.Attributes = some a)
      ∧ LastHoldersAnnotated samplePenv ⟨(), false⟩ table heap1 sampleMetrics.flatten :=
  ⟨by decide, by decide,
    C10_last_holders_are_annotated samplePenv ⟨(), false⟩ sampleKubelet sampleMetrics
      Heap.empty () _ (by decide) (by rfl) (by rfl) (by decide) (by decide) (by decide)
      (by decide)⟩

/-! ## `Process`: the paths that end before the annotation loop -/

/-- C12: when the socket path exists but `connectToServer` fails, or connecting
succeeds but `ListPods` fails, `Process` returns that error, and the metric
records and every attribute map are exactly as before the call; the result
does not depend on the table or on anything read after the failing step, and
each step is taken once. -/
theorem C12_connect_or_list_error_is_returned {SystemInfo F IdType Err : Type}
    (penv : ProcEnv SystemInfo F IdType Err) (cfg : Config IdType) (kubelet : Kubelet Err)
    (metrics : List (List (Metric F))) (heap : Heap) (sysInfo : SystemInfo) (err : Err)
    (hstat : kubelet.statIsNotExist = false)
    (hfail : kubelet.connectToServer = .error err
      ∨ (kubelet.connectToServer = .ok () ∧ kubelet.ListPods = .error err)) :
    Process penv cfg kubelet metrics heap sysInfo = some (some err, metrics, heap) := by
  unfold Process
  rcases hfail with hc | ⟨hc, hl⟩
  · simp only [hstat, hc, Bool.false_eq_true, if_false]
  · simp only [hstat, hc, hl, Bool.false_eq_true, if_false]

theorem C12_connect_error_witness :
    Process samplePenv ⟨(), false⟩ refusingKubelet sampleMetrics Heap.empty ()
      = some (some (), sampleMetrics, Heap.empty) :=
  C12_connect_or_list_error_is_returned samplePenv ⟨(), false⟩ refusingKubelet sampleMetrics
    Heap.empty () () (by decide) (Or.inl (by rfl))

/-- C13: when `os.Stat` reports that the kubelet socket path does not exist,
`Process` returns no error and leaves every metric record and every attribute
map as it was, whatever connecting or listing would have answered: neither is
attempted. -/
theorem C13_missing_socket_is_ignored {SystemInfo F IdType Err : Type}
    (penv : ProcEnv SystemInfo F IdType Err) (cfg : Config IdType) (kubelet : Kubelet Err)
    (metrics : List (List (Metric F))) (heap : Heap) (sysInfo : SystemInfo)
    (hstat : kubelet.statIsNotExist = true) :
    Process penv cfg kubelet metrics heap sysInfo = some (none, metrics, heap) := by
  unfold Process
  rw [if_pos hstat]

theorem C13_missing_socket_witness :
    Process samplePenv ⟨(), false⟩ absentKubelet sampleMetrics Heap.empty ()
      = some (none, sampleMetrics, Heap.empty) :=
  C13_missing_socket_is_ignored samplePenv ⟨(), false⟩ absentKubelet sampleMetrics Heap.empty
    () (by decide)

/-! ## `Process`: what an error return leaves behind -/

/-- C11, as stated, fails: with three records of which the second has no id,
`Process` returns the error of `getIDOfType` after it has written the three
attributes of the first record: the map of the first record, empty before the
call, holds `pod-a`'s attribution after it. -/
theorem C11_counterexample_error_after_partial_annotation :
    (Process strictPenv ⟨(), false⟩ sampleKubelet partlyKeyedMetrics Heap.empty ()).map
        (fun r => (r.1, r.2.2 0))
      = some (some (),
          [("container".toList, "main".toList), ("namespace".toList, "default".toList),
            ("pod".toList, "pod-a".toList)])
    ∧ Heap.empty 0 = []
    ∧ (partlyKeyedMetrics.map (fun g => g.map (fun r => r.attribute Heap.empty "pod".toList)))
        = [[none, none, none]]
    ∧ (Process strictPenv ⟨(), false⟩ sampleKubelet partlyKeyedMetrics Heap.empty ()).map
        (fun r => partlyKeyedMetrics.map
          (fun g => g.map (fun m => Metric.attribute r.2.2 m "pod".toList)))
      = some [[some "pod-a".toList, none, none]] := by
  decide

/-- C11, amended: when `Process` returns an error that comes from connecting or
listing, no metric record and no attribute map has been mutated; when it comes
from computing a record's id inside the annotation loop, the records before
that one, in the order of iteration, have been annotated, and every attribute
map that none of them holds is as before the call: the failing record and the
records after it are untouched unless they share their map with an earlier
record. -/
theorem C11_error_leaves_unreached_maps {SystemInfo F IdType Err : Type}
    (penv : ProcEnv SystemInfo F IdType Err) (cfg : Config IdType) (kubelet : Kubelet Err)
    (metrics : List (List (Metric F))) (heap : Heap) (sysInfo : SystemInfo) (err : Err)
    (hret : (Process penv cfg kubelet metrics heap sysInfo).map Prod.fst = some (some err)) :
    StoppedAt penv cfg kubelet sysInfo metrics heap err := by
  unfold StoppedAt
  cases hs : kubelet.statIsNotExist with
  | true =>
    simp [Process, hs] at hret
  | false =>
    cases hc : kubelet.connectToServer with
    | error e =>
      have hp : Process penv cfg kubelet metrics heap sysInfo = some (some e, metrics, heap) := by
        simp [Process, hs, hc]
      rw [hp] at hret ⊢
      simp only [Option.map_some', Option.some.injEq] at hret
      subst hret
      exact Or.inl ⟨Or.inl rfl, rfl⟩
    | ok u =>
      cases hl : kubelet.ListPods with
      | error e =>
        have hp : Process penv cfg kubelet metrics heap sysInfo
            = some (some e, metrics, heap) := by
          simp [Process, hs, hc, hl]
        rw [hp] at hret ⊢
        simp only [Option.map_some', Option.some.injEq] at hret
        subst hret
        exact Or.inl ⟨Or.inr rfl, rfl⟩
      | ok pods =>
        rw [Process_eq_loop penv cfg kubelet metrics heap sysInfo pods u hs hc hl] at hret ⊢
        cases hloop : annotateDevice penv cfg
            ((assignments penv.toEnv pods).foldl (registerAssignment penv.toEnv sysInfo) [])
            metrics.flatten heap with
        | none =>
          rw [hloop] at hret
          simp at hret
        | some res =>
          obtain ⟨e, heap1⟩ := res
          rw [hloop] at hret
          simp only [Option.map_some', Option.some.injEq] at hret
          subst hret
          obtain ⟨done, failing, left, hsplit, hfail, hdone⟩ :=
            annotateDevice_err_split penv cfg _ _ heap heap1 err hloop
          exact Or.inr ⟨pods, _, heap1, done, failing, left, rfl,
            ToDeviceToPod_eq penv.toEnv pods sysInfo, rfl, hsplit, hfail,
            fun a ha => annotateDevice_other_maps penv cfg _ done heap heap1 none hdone a ha,
            fun h12 h13 h23 =>
              annotateDevice_annotated penv cfg _ h12 h13 h23 done heap heap1 hdone⟩

theorem C11_error_witness :
    (Process strictPenv ⟨(), false⟩ sampleKubelet partlyKeyedMetrics Heap.empty ()).map
        (fun r => (r.1, r.2.2 1))
      = some (some (), [])
    ∧ (Process strictPenv ⟨(), false⟩ sampleKubelet partlyKeyedMetrics Heap.empty ()).map
        (fun r => r.2.2 2)
      = some []
    ∧ StoppedAt strictPenv ⟨(), false⟩ sampleKubelet () partlyKeyedMetrics Heap.empty () :=
  ⟨by decide, by decide,
    C11_error_leaves_unreached_maps strictPenv ⟨(), false⟩ sampleKubelet partlyKeyedMetrics
      Heap.empty () () (by decide)⟩

/-! ## `Process`: what is left untouched -/

theorem forall2_same {α : Type} (R : α → α → Prop) (hR : ∀ x, R x x) (l : List α) :
    List.Forall₂ R l l := by
  induction l with
  | nil => exact List.Forall₂.nil
  | cons x xs ih => exact List.Forall₂.cons (hR x) ih

theorem SameExceptSelected_of_frame {SystemInfo F IdType Err : Type}
    (penv : ProcEnv SystemInfo F IdType Err) (cfg : Config IdType) (heap heap1 : Heap)
    (hframe : ∀ a k, k ≠ (selectedAttributes penv cfg).1 →
      k ≠ (selectedAttributes penv cfg).2.1 → k ≠ (selectedAttributes penv cfg).2.2 →
      (heap1 a).find k = (heap a).find k) (r : Metric F) :
    SameExceptSelected penv cfg heap heap1 r r := by
  refine ⟨rfl, ?_⟩
  intro k h1 h2 h3
  unfold Metric.attribute
  cases r.Attributes with
  | none => rfl
  | some a => exact hframe a k h1 h2 h3

/-- C14: `Process` writes one set of attribute names per invocation and nothing
else.  With `UseOldNamespace` false the names are `podAttribute`,
`namespaceAttribute`, `containerAttribute`, with `UseOldNamespace` true they
are `oldPodAttribute`, `oldNamespaceAttribute`, `oldContainerAttribute`.
Whenever `Process` returns, with or without an error, the slice of groups and
records is the one it was given (same number, same order, same fields), in
every attribute map every name other than the three selected ones (the names
of the other set among them) reads as before, and so it does for every
record. -/
theorem C14_only_selected_attributes_change {SystemInfo F IdType Err : Type}
    (penv : ProcEnv SystemInfo F IdType Err) (cfg : Config IdType) (kubelet : Kubelet Err)
    (metrics : List (List (Metric F))) (heap : Heap) (sysInfo : SystemInfo)
    (hret : (Process penv cfg kubelet metrics heap sysInfo).isSome = true) :
    (∃ (e : Option Err) (heap1 : Heap),
      Process penv cfg kubelet metrics heap sysInfo = some (e, metrics, heap1)
      ∧ (∀ a k, k ≠ (selectedAttributes penv cfg).1 → k ≠ (selectedAttributes penv cfg).2.1 →
          k ≠ (selectedAttributes penv cfg).2.2 → (heap1 a).find k = (heap a).find k)
      ∧ List.Forall₂ (List.Forall₂ (SameExceptSelected penv cfg heap heap1)) metrics metrics)
    ∧ (cfg.UseOldNamespace = false → selectedAttributes penv cfg
        = (penv.podAttribute, penv.namespaceAttribute, penv.containerAttribute))
    ∧ (cfg.UseOldNamespace = true → selectedAttributes penv cfg
        = (penv.oldPodAttribute, penv.oldNamespaceAttribute, penv.oldContainerAttribute)) := by
  have hfinish : ∀ (e : Option Err) (heap1 : Heap),
      Process penv cfg kubelet metrics heap sysInfo = some (e, metrics, heap1) →
      (∀ a k, k ≠ (selectedAttributes penv cfg).1 → k ≠ (selectedAttributes penv cfg).2.1 →
          k ≠ (selectedAttributes penv cfg).2.2 → (heap1 a).find k = (heap a).find k) →
      ∃ (e : Option Err) (heap1 : Heap),
        Process penv cfg kubelet metrics heap sysInfo = some (e, metrics, heap1)
        ∧ (∀ a k, k ≠ (selectedAttributes penv cfg).1 →
            k ≠ (selectedAttributes penv cfg).2.1 →
            k ≠ (selectedAttributes penv cfg).2.2 → (heap1 a).find k = (heap a).find k)
        ∧ List.Forall₂ (List.Forall₂ (SameExceptSelected penv cfg heap heap1))
            metrics metrics :=
    fun e heap1 hp hframe => ⟨e, heap1, hp, hframe,
      forall2_same _ (forall2_same _ (SameExceptSelected_of_frame penv cfg heap heap1 hframe))
        metrics⟩
  refine ⟨?_, ?_, ?_⟩
  · cases hs : kubelet.statIsNotExist with
    | true =>
      exact hfinish none heap (by simp [Process, hs]) (fun _ _ _ _ _ => rfl)
    | false =>
      cases hc : kubelet.connectToServer with
      | error err =>
        exact hfinish (some err) heap (by simp [Process, hs, hc]) (fun _ _ _ _ _ => rfl)
      | ok u =>
        cases hl : kubelet.ListPods with
        | error err =>
          exact hfinish (some err) heap (by simp [Process, hs, hc, hl])
            (fun _ _ _ _ _ => rfl)
        | ok pods =>
          rw [Process_eq_loop penv cfg kubelet metrics heap sysInfo pods u hs hc hl] at hret ⊢
          cases hloop : annotateDevice penv cfg
              ((assignments penv.toEnv pods).foldl (registerAssignment penv.toEnv sysInfo) [])
              metrics.flatten heap with
          | none =>
            rw [hloop] at hret
            simp at hret
          | some res =>
            obtain ⟨e, heap1⟩ := res
            have hframe := annotateDevice_other_names penv cfg _ _ heap heap1 e hloop
            exact ⟨e, heap1, rfl, hframe,
              forall2_same _
                (forall2_same _ (SameExceptSelected_of_frame penv cfg heap heap1 hframe))
                metrics⟩
  · intro h
    simp [selectedAttributes, h]
  · intro h
    simp [selectedAttributes, h]

theorem C14_only_selected_attributes_witness :
    (Process samplePenv ⟨(), true⟩ sampleKubelet sampleMetrics Heap.empty ()).map
        (fun r => (r.1, r.2.2 0))
      = some (none,
          [("container_name".toList, "main".toList),
            ("pod_namespace".toList, "default".toList), ("pod_name".toList, "pod-a".toList)])
    ∧ ((∃ (e : Option Unit) (heap1 : Heap),
        Process samplePenv ⟨(), true⟩ sampleKubelet sampleMetrics Heap.empty ()
          = some (e, sampleMetrics, heap1)
        ∧ (∀ a k, k ≠ (selectedAttributes samplePenv ⟨(), true⟩).1 →
            k ≠ (selectedAttributes samplePenv ⟨(), true⟩).2.1 →
            k ≠ (selectedAttributes samplePenv ⟨(), true⟩).2.2 →
            (heap1 a).find k = (Heap.empty a).find k)
        ∧ List.Forall₂ (List.Forall₂
            (SameExceptSelected samplePenv ⟨(), true⟩ Heap.empty heap1))
            sampleMetrics sampleMetrics)
      ∧ ((⟨(), true⟩ : Config Unit).UseOldNamespace = false →
          selectedAttributes samplePenv ⟨(), true⟩
          = (samplePenv.podAttribute, samplePenv.namespaceAttribute,
              samplePenv.containerAttribute))
      ∧ ((⟨(), true⟩ : Config Unit).UseOldNamespace = true →
          selectedAttributes samplePenv ⟨(), true⟩
          = (samplePenv.oldPodAttribute, samplePenv.oldNamespaceAttribute,
              samplePenv.oldContainerAttribute))) :=
  ⟨by decide,
    C14_only_selected_attributes_change samplePenv ⟨(), true⟩ sampleKubelet sampleMetrics
      Heap.empty () (by decide)⟩

/-! ## Empty input -/

theorem find_lastOwner {SystemInfo : Type} (env : Env SystemInfo) (sysInfo : SystemInfo)
    (devicePods : Option ListPodResourcesResponse) (key : GoString) :
    ((assignments env devicePods).foldl (registerAssignment env sysInfo) []).find key
      = lastOwner env sysInfo devicePods key := by
  rw [find_foldl_registerAssignment]
  unfold lastOwner
  simp [GoMap.find]

/-- C15: an empty input gives an empty table and no error: a nil response, a
response with no pod resources, and more generally any response in which no
resource grouping of any container of any pod lists a device id (pods without
containers, containers without devices, devices without ids). -/
theorem C15_empty_input_gives_empty_table {SystemInfo : Type} (env : Env SystemInfo)
    (sysInfo : SystemInfo) :
    ToDeviceToPod env none sysInfo = some []
    ∧ ToDeviceToPod env (some { PodResources := [] }) sysInfo = some []
    ∧ ∀ devicePods : Option ListPodResourcesResponse,
        (∀ pod ∈ ListPodResourcesResponse.GetPodResources devicePods,
          ∀ container ∈ PodResources.GetContainers pod,
            ∀ device ∈ ContainerResources.GetDevices container,
              ContainerDevices.GetDeviceIds device = []) →
        ToDeviceToPod env devicePods sysInfo = some [] := by
  refine ⟨rfl, rfl, ?_⟩
  intro devicePods h
  have hnil : assignments env devicePods = [] := by
    unfold assignments
    rw [List.flatMap_eq_nil_iff]
    intro pod hpod
    rw [List.flatMap_eq_nil_iff]
    intro container hc
    rw [List.flatMap_eq_nil_iff]
    intro device hd
    rw [h pod hpod container hc device hd]
    simp
  rw [ToDeviceToPod_eq, hnil]
  rfl

/-! ## Overlap of the match conditions -/

/-- C16, as stated, fails: `GPU-1/vgpu0::x` contains both `/vgpu` and `::`, and
with the marker `MIG-` the id `MIG-a::b` both starts with the marker and
contains `::`. -/
theorem C16_counterexample_conditions_overlap :
    Contains "GPU-1/vgpu0::x".toList gkeVirtualGPUDeviceIdSeparator = true
    ∧ Contains "GPU-1/vgpu0::x".toList "::".toList = true
    ∧ HasPrefix "MIG-a::b".toList sampleEnv.MIG_UUID_PREFIX = true
    ∧ Contains "MIG-a::b".toList "::".toList = true := by
  decide

/-- C16, amended: a device id matching `^nvidia([0-9]+)/gi([0-9]+)$` contains
neither `/vgpu` nor `::`; the other conditions may hold together, and then
every matching condition other than the one that handles the id comes later
in the order of the tests. -/
theorem C16_pattern_excludes_separators_order_decides {SystemInfo : Type}
    (env : Env SystemInfo) (deviceid : GoString) :
    ((gkeMigDeviceIdRegex_FindStringSubmatch deviceid).isSome = true →
      Contains deviceid gkeVirtualGPUDeviceIdSeparator = false
      ∧ Contains deviceid "::".toList = false)
    ∧ ∀ r : Rule, r.applies env deviceid = true → r ≠ firstRule env deviceid →
        (firstRule env deviceid).rank < r.rank := by
  constructor
  · intro h
    obtain ⟨l, hl⟩ := Option.isSome_iff_exists.mp h
    exact ⟨gke_not_Contains_vgpu _ l hl, gke_not_Contains_colons _ l hl⟩
  · intro r hr hne
    have hleast := firstRule_least env deviceid r
    have hge : ¬ r.rank < (firstRule env deviceid).rank := by
      intro hlt
      rw [hleast hlt] at hr
      exact absurd hr (by simp)
    have hrank : r.rank ≠ (firstRule env deviceid).rank := by
      intro heq
      apply hne
      revert heq
      cases r <;> cases firstRule env deviceid <;> simp [Rule.rank]
    omega

/-! ## Concatenation of pod lists -/

theorem assignments_append {SystemInfo : Type} (env : Env SystemInfo)
    (A B : List (Option PodResources)) :
    assignments env (some { PodResources := A ++ B })
      = assignments env (some { PodResources := A })
        ++ assignments env (some { PodResources := B }) := by
  unfold assignments
  simp only [ListPodResourcesResponse.GetPodResources, List.flatMap_append]

/-- C17: for all pod-resource lists `A` and `B` and every system information,
the table for the response `A ++ B` is the table for `A` overridden by the
table for `B`: a key of `B`'s table has `B`'s value, every other key has what
`A`'s table has there. -/
theorem C17_concatenation_is_right_biased_union {SystemInfo : Type} (env : Env SystemInfo)
    (sysInfo : SystemInfo) (A B : List (Option PodResources)) :
    ∃ tableA tableB tableAB : GoMap PodInfo,
      ToDeviceToPod env (some { PodResources := A }) sysInfo = some tableA
      ∧ ToDeviceToPod env (some { PodResources := B }) sysInfo = some tableB
      ∧ ToDeviceToPod env (some { PodResources := A ++ B }) sysInfo = some tableAB
      ∧ ∀ key, tableAB.find key = overriddenBy tableA tableB key := by
  refine ⟨_, _, _, ToDeviceToPod_eq env _ sysInfo, ToDeviceToPod_eq env _ sysInfo,
    ToDeviceToPod_eq env _ sysInfo, ?_⟩
  intro key
  unfold overriddenBy
  rw [assignments_append, List.foldl_append, find_foldl_registerAssignment,
    find_foldl_registerAssignment env sysInfo (assignments env (some { PodResources := B })) []]
  cases ((assignments env (some { PodResources := B })).reverse.find?
      (fun a => decide (key ∈ deviceKeys env sysInfo a.2))) with
  | none => simp [GoMap.find]
  | some a => simp

/-! ## What the table holds -/

theorem mem_assignments {SystemInfo : Type} (env : Env SystemInfo)
    (devicePods : Option ListPodResourcesResponse) (podInfo : PodInfo) (deviceid : GoString) :
    (podInfo, deviceid) ∈ assignments env devicePods ↔ Lists env devicePods podInfo deviceid := by
  unfold assignments Lists
  simp only [List.mem_flatMap]
  constructor
  · rintro ⟨pod, hpod, container, hc, device, hd, hmem⟩
    by_cases hq : qualifies env (ContainerDevices.GetResourceName device) = true
    · rw [if_pos hq, List.mem_map] at hmem
      obtain ⟨id, hid, heq⟩ := hmem
      simp only [Prod.mk.injEq] at heq
      refine ⟨pod, hpod, container, hc, device, hd, hq, ?_, heq.1.symm⟩
      rw [← heq.2]
      exact hid
    · rw [if_neg hq] at hmem
      exact absurd hmem (List.not_mem_nil _)
  · rintro ⟨pod, hpod, container, hc, device, hd, hq, hid, heq⟩
    refine ⟨pod, hpod, container, hc, device, hd, ?_⟩
    rw [if_pos hq, List.mem_map]
    exact ⟨deviceid, hid, by rw [heq]⟩

theorem deviceKeys_ne_nil {SystemInfo : Type} (env : Env SystemInfo) (sysInfo : SystemInfo)
    (deviceid : GoString) : deviceKeys env sysInfo deviceid ≠ [] := by
  have happ := firstRule_applies env deviceid
  unfold deviceKeys
  cases hr : firstRule env deviceid with
  | migUuid =>
    simp only [Rule.keys]
    cases env.ParseMigDeviceUUID deviceid with
    | error e => simp
    | ok r => simp
  | gkeMig =>
    rw [hr] at happ
    simp only [Rule.applies] at happ
    obtain ⟨l, hl⟩ := Option.isSome_iff_exists.mp happ
    simp [Rule.keys, hl]
  | virtualGpu => simp [Rule.keys]
  | doubleColon => simp [Rule.keys]
  | fallback => simp [Rule.keys]

/-- C18: the table holds nothing but what qualifying ids produce.  For every
response, a key is present in the table returned by `ToDeviceToPod` if and
only if some device id listed under a qualifying resource grouping produces it
under the identifier rules; every such id produces at least one key; and every
value in the table is the (pod name, namespace, container name) of a pod and a
container of the response that list an id producing the key. -/
theorem C18_table_holds_exactly_produced_keys {SystemInfo : Type} (env : Env SystemInfo)
    (devicePods : Option ListPodResourcesResponse) (sysInfo : SystemInfo) :
    ∃ table : GoMap PodInfo,
      ToDeviceToPod env devicePods sysInfo = some table
      ∧ (∀ key, (table.find key).isSome = true ↔
          ∃ podInfo deviceid, Lists env devicePods podInfo deviceid
            ∧ key ∈ deviceKeys env sysInfo deviceid)
      ∧ (∀ podInfo deviceid, Lists env devicePods podInfo deviceid →
          deviceKeys env sysInfo deviceid ≠ [])
      ∧ (∀ key podInfo, table.find key = some podInfo →
          ∃ deviceid, Lists env devicePods podInfo deviceid
            ∧ key ∈ deviceKeys env sysInfo deviceid) := by
  refine ⟨_, ToDeviceToPod_eq env devicePods sysInfo, ?_, ?_, ?_⟩
  · intro key
    rw [find_lastOwner]
    unfold lastOwner
    rw [Option.isSome_map', List.find?_isSome]
    constructor
    · rintro ⟨a, ha, hk⟩
      obtain ⟨p, id⟩ := a
      rw [List.mem_reverse, mem_assignments] at ha
      exact ⟨p, id, ha, of_decide_eq_true hk⟩
    · rintro ⟨p, id, hl, hk⟩
      refine ⟨(p, id), ?_, decide_eq_true hk⟩
      rw [List.mem_reverse, mem_assignments]
      exact hl
  · intro _ deviceid _
    exact deviceKeys_ne_nil env sysInfo deviceid
  · intro key podInfo hfind
    rw [find_lastOwner] at hfind
    unfold lastOwner at hfind
    rw [Option.map_eq_some'] at hfind
    obtain ⟨a, ha, hfst⟩ := hfind
    obtain ⟨p, id⟩ := a
    have hk := List.find?_some ha
    have hmem := List.mem_of_find?_eq_some ha
    rw [List.mem_reverse, mem_assignments] at hmem
    simp only at hfst
    subst hfst
    exact ⟨id, hmem, of_decide_eq_true hk⟩

/-! ## No index out of range -/

theorem Split_head {s sep : GoString} (hsep : sep ≠ []) :
    (Split s sep)[0]? = some (beforeFirst s sep) := by
  unfold beforeFirst
  cases hi : Index s sep with
  | none => exact Split_head_of_not_Contains s sep hsep hi
  | some m => exact Split_head_of_Index s sep m hsep hi

/-- C19: `ToDeviceToPod` never indexes out of range.  It returns a table for
every response, and the loop body returns one for every device id, the empty
string and `MIG_UUID_PREFIX` alone included.  The slice
`deviceid[len(MIG_UUID_PREFIX):]` is in range whenever the id starts with the
prefix (an id for which it would be out of range does not start with it, and
only ids that do reach the slice); element 0 of `strings.Split(deviceid, sep)`
exists for the separators `/vgpu` and `::`; and a non-nil match of the pattern
is the whole match followed by capture groups 1 and 2. -/
theorem C19_no_index_out_of_range {SystemInfo : Type} (env : Env SystemInfo)
    (sysInfo : SystemInfo) :
    (∀ devicePods, ∃ table, ToDeviceToPod env devicePods sysInfo = some table)
    ∧ (∀ podInfo m deviceid, ∃ m1, registerDeviceId env sysInfo podInfo m deviceid = some m1)
    ∧ (∀ deviceid, HasPrefix deviceid env.MIG_UUID_PREFIX = true →
        sliceFrom deviceid env.MIG_UUID_PREFIX.length
          = some (deviceid.drop env.MIG_UUID_PREFIX.length))
    ∧ (∀ deviceid, sliceFrom deviceid env.MIG_UUID_PREFIX.length = none →
        HasPrefix deviceid env.MIG_UUID_PREFIX = false)
    ∧ sliceFrom env.MIG_UUID_PREFIX env.MIG_UUID_PREFIX.length = some []
    ∧ (∀ deviceid, ∃ key, (Split deviceid gkeVirtualGPUDeviceIdSeparator)[0]? = some key)
    ∧ (∀ deviceid, ∃ key, (Split deviceid "::".toList)[0]? = some key)
    ∧ (∀ deviceid groups, gkeMigDeviceIdRegex_FindStringSubmatch deviceid = some groups →
        ∃ g1 g2, groups = [deviceid, g1, g2]) := by
  have hslice : ∀ deviceid, HasPrefix deviceid env.MIG_UUID_PREFIX = true →
      sliceFrom deviceid env.MIG_UUID_PREFIX.length
        = some (deviceid.drop env.MIG_UUID_PREFIX.length) := by
    intro deviceid h
    have hlen : env.MIG_UUID_PREFIX.length ≤ deviceid.length :=
      (List.isPrefixOf_iff_prefix.mp h).length_le
    unfold sliceFrom
    rw [if_pos hlen]
  refine ⟨fun devicePods => ⟨_, ToDeviceToPod_eq env devicePods sysInfo⟩,
    fun podInfo m deviceid => ⟨_, registerDeviceId_eq env sysInfo podInfo m deviceid⟩,
    hslice, ?_, ?_, fun deviceid => ⟨_, Split_head (by decide)⟩,
    fun deviceid => ⟨_, Split_head (by decide)⟩, ?_⟩
  · intro deviceid hnone
    cases hp : HasPrefix deviceid env.MIG_UUID_PREFIX with
    | false => rfl
    | true =>
      rw [hslice deviceid hp] at hnone
      exact absurd hnone (by simp)
  · simp [sliceFrom]
  · intro deviceid groups h
    obtain ⟨N, M, -, -, -, -, -, hl⟩ := gke_sound deviceid groups h
    exact ⟨N, M, hl⟩

end DcgmExporter
